import Mathlib

/-! VitaLife client: appointment time windows, conflict detection, filter and sort.

A shallow embedding of the temporal and list logic of the VitaLife web client
(`fypt/src/services/appointmentsService.js`, `fypt/src/hooks/useAppointments.js`,
`fypt/src/pages/EnhancedAppointmentsPage.jsx`,
`fypt/src/components/notifications/NotificationsPanel.jsx`,
`fypt/src/components/chat/ChatInterface.jsx`, `fypt/src/services/chatService.js`,
`fypt/src/services/notificationService.js`, `fypt/src/services/recordsService.js`,
`fypt/src/services/logService.js`, `fypt/src/hooks/useNotifications.js`,
`fypt/src/components/appointments/AppointmentForm.jsx`,
`fypt/src/components/appointments/AppointmentDetails.jsx`,
`fypt/src/components/chat/ChatInput.jsx`, `fypt/src/pages/SystemLogsPage.jsx`).

Modelling conventions.

* A JavaScript `Date` is its time value: `Option Int`, milliseconds since the epoch,
  `none` standing for `NaN` (an `Invalid Date`). A record field that the code passes to
  `new Date(..)` holds the time value that this constructor yields.
* The host's local time zone is a fixed offset `tz`, in minutes east of UTC
  (local time = UTC + `tz` minutes). Daylight-saving changes are not modelled.
* The calendar functions follow ECMA-262, section "Date Objects": `Day`, `TimeWithinDay`,
  `DayFromYear`, `YearFromTime`, `InLeapYear`, `MonthFromTime`, `DateFromTime`, `WeekDay`,
  `MakeDay`, `MakeDate`.
* `Array.prototype.sort` is a stable sort; a comparator result of `NaN` counts as `0`.
  It sorts in place, so a function whose sorted array may be the caller's array returns the
  final contents of the caller's array next to its result.
* An `async` function that may throw returns `Except JsError _`.
* `new Date(number)` applies ECMA-262 `TimeClip` where `checkConflicts` adds a duration to
  a start: an end beyond `±8.64e15` ms is an `Invalid Date`. Instants computed from the
  current time `now` are far from that bound and are not clipped.
* The search methods of `notificationService.js` and `recordsService.js` take the host's
  `String.prototype.toLowerCase` as a parameter; `toLowerCaseWith` is the ECMA-262
  algorithm over a table of lower-case mappings. Elsewhere (log levels, the search step of
  the notifications panel) `toLowerCase` is that algorithm over the ASCII mapping, which
  is the host's function on ASCII text.
  A string is a sequence of Unicode code points; lone surrogates are not modelled.
* The health score of `calculateSystemHealth` is computed in doubles: each arithmetic
  operation rounds to the nearest double, ties to even (`roundToDouble`). The other numbers
  are integers (time values, counts, lengths), on which the arithmetic of the code is
  exact.
-/

namespace VitaLife

/-! ## ECMA-262 calendar arithmetic -/

/-- Milliseconds per day. -/
def msPerDay : Int := 86400000

/-- Milliseconds per minute. -/
def msPerMinute : Int := 60000

/-- ECMA-262 `Day(t)`: the day number of a time value. -/
def Day (t : Int) : Int := t / msPerDay

/-- ECMA-262 `TimeWithinDay(t)`. -/
def TimeWithinDay (t : Int) : Int := t % msPerDay

/-- ECMA-262 `DayFromYear(y)`: the day number of the first day of year `y`. -/
def DayFromYear (y : Int) : Int :=
  365 * (y - 1970) + (y - 1969) / 4 - (y - 1901) / 100 + (y - 1601) / 400

/-- The year containing day number `d`: the largest `y` with `DayFromYear y ≤ d`, found by
correcting the estimate `1970 + 400 d / 146097` by at most one year. -/
def yearFromDay (d : Int) : Int :=
  let est := 1970 + (400 * d) / 146097
  if DayFromYear (est + 1) ≤ d then est + 1
  else if DayFromYear est ≤ d then est
  else est - 1

/-- ECMA-262 `YearFromTime(t)`. -/
def YearFromTime (t : Int) : Int := yearFromDay (Day t)

/-- ECMA-262 `InLeapYear(t)`, on the year: `1` in a leap year, `0` otherwise. -/
def inLeapYear (y : Int) : Int :=
  if y % 4 ≠ 0 then 0 else if y % 100 ≠ 0 then 1 else if y % 400 ≠ 0 then 0 else 1

/-- ECMA-262 `DayWithinYear(t)`. -/
def DayWithinYear (t : Int) : Int := Day t - DayFromYear (YearFromTime t)

/-- The month (0 = January) that contains day `dwy` of a year with leap flag `leap`. -/
def monthFromDayWithinYear (dwy leap : Int) : Int :=
  if dwy < 31 then 0
  else if dwy < 59 + leap then 1
  else if dwy < 90 + leap then 2
  else if dwy < 120 + leap then 3
  else if dwy < 151 + leap then 4
  else if dwy < 181 + leap then 5
  else if dwy < 212 + leap then 6
  else if dwy < 243 + leap then 7
  else if dwy < 273 + leap then 8
  else if dwy < 304 + leap then 9
  else if dwy < 334 + leap then 10
  else 11

/-- The day within the year on which month `m` (0 = January) starts. -/
def monthStart (m leap : Int) : Int :=
  if m = 0 then 0
  else if m = 1 then 31
  else if m = 2 then 59 + leap
  else if m = 3 then 90 + leap
  else if m = 4 then 120 + leap
  else if m = 5 then 151 + leap
  else if m = 6 then 181 + leap
  else if m = 7 then 212 + leap
  else if m = 8 then 243 + leap
  else if m = 9 then 273 + leap
  else if m = 10 then 304 + leap
  else 334 + leap

/-- ECMA-262 `MonthFromTime(t)`. -/
def MonthFromTime (t : Int) : Int :=
  monthFromDayWithinYear (DayWithinYear t) (inLeapYear (YearFromTime t))

/-- ECMA-262 `DateFromTime(t)`: the day of the month, from 1. -/
def DateFromTime (t : Int) : Int :=
  DayWithinYear t - monthStart (MonthFromTime t) (inLeapYear (YearFromTime t)) + 1

/-- ECMA-262 `WeekDay(t)`: 0 = Sunday, ..., 6 = Saturday. -/
def WeekDay (t : Int) : Int := (Day t + 4) % 7

/-- ECMA-262 `MakeDay(year, month, date)`: months beyond 0..11 carry into the year and the
date may lie outside the month. -/
def MakeDay (year month date : Int) : Int :=
  let ym := year + month / 12
  let mn := month % 12
  DayFromYear ym + monthStart mn (inLeapYear ym) + date - 1

/-- ECMA-262 `MakeDate(day, time)`. -/
def MakeDate (day time : Int) : Int := day * msPerDay + time

/-- ECMA-262 `LocalTime(t)` for a zone at the fixed offset `tz` minutes. -/
def LocalTime (tz t : Int) : Int := t + tz * msPerMinute

/-- ECMA-262 `UTC(t)` for a zone at the fixed offset `tz` minutes. -/
def UTC (tz t : Int) : Int := t - tz * msPerMinute

/-! ## The `Date` object in a zone at offset `tz` -/

/-- The method `getDay()` of a valid `Date`. -/
def getDay (tz t : Int) : Int := WeekDay (LocalTime tz t)

/-- The method `getDate()` of a valid `Date`. -/
def getDate (tz t : Int) : Int := DateFromTime (LocalTime tz t)

/-- The method `getMonth()` of a valid `Date`. -/
def getMonth (tz t : Int) : Int := MonthFromTime (LocalTime tz t)

/-- The method `getFullYear()` of a valid `Date`. -/
def getFullYear (tz t : Int) : Int := YearFromTime (LocalTime tz t)

/-- The method `setDate(dt)` of a valid `Date`: the new time value, which the call both
stores in the object and returns. The local time of day is kept. -/
def setDate (tz t dt : Int) : Int :=
  let lt := LocalTime tz t
  UTC tz (MakeDate (MakeDay (YearFromTime lt) (MonthFromTime lt) dt) (TimeWithinDay lt))

/-- The constructor `new Date(year, month, date)`: local midnight of that day; a year in
0..99 is read as 1900 + year. -/
def newDateOfFields (tz year month date : Int) : Int :=
  let yr := if 0 ≤ year ∧ year ≤ 99 then 1900 + year else year
  UTC tz (MakeDate (MakeDay yr month date) 0)

/-- The text produced by `toDateString()`: either `Invalid Date`, or the local week day,
month, day of the month and year (as in `Wed Jan 01 2020`). -/
inductive DateString where
  | invalidDate : DateString
  | text (weekDay month date year : Int) : DateString
  deriving DecidableEq, Repr

/-- The method `toDateString()`. -/
def toDateString (tz : Int) : Option Int → DateString
  | none => DateString.invalidDate
  | some t =>
    let lt := LocalTime tz t
    DateString.text (WeekDay lt) (MonthFromTime lt) (DateFromTime lt) (YearFromTime lt)

/-- A thrown JavaScript error: its name and, for a failed HTTP request that got a
response, the status read by `error.response?.status`. -/
structure JsError where
  name : String
  responseStatus : Option Nat
  deriving DecidableEq, Repr

/-- The `RangeError` thrown by `toISOString()` on an invalid date. -/
def rangeError : JsError := ⟨"RangeError", none⟩

/-- The text `YYYY-MM-DD` (month from 1) that `toISOString().split('T')[0]` yields. -/
structure IsoDate where
  year : Int
  month : Int
  date : Int
  deriving DecidableEq, Repr

/-- The expression `d.toISOString().split('T')[0]`: the UTC calendar date of `d`;
`toISOString` throws on an invalid date. -/
def toISODate : Option Int → Except JsError IsoDate
  | none => Except.error rangeError
  | some t => Except.ok ⟨YearFromTime t, MonthFromTime t + 1, DateFromTime t⟩

/-- The time value of `new Date(s)` for a date-only text `YYYY-MM-DD`: a date-only form is
read as UTC midnight. -/
def parseIsoDate (s : IsoDate) : Option Int :=
  some (MakeDate (MakeDay s.year (s.month - 1) s.date) 0)

/-! ## Comparison and subtraction of dates (number coercion, `NaN` aware) -/

/-- The comparison `a >= b` on time values: false when either is `NaN`. -/
def dateGe : Option Int → Option Int → Bool
  | some x, some y => decide (y ≤ x)
  | _, _ => false

/-- The comparison `a > b` on time values. -/
def dateGt : Option Int → Option Int → Bool
  | some x, some y => decide (y < x)
  | _, _ => false

/-- The comparison `a <= b` on time values. -/
def dateLe : Option Int → Option Int → Bool
  | some x, some y => decide (x ≤ y)
  | _, _ => false

/-- The comparison `a < b` on time values. -/
def dateLt : Option Int → Option Int → Bool
  | some x, some y => decide (x < y)
  | _, _ => false

/-- The difference `a - b` of two numbers: `NaN` when either is `NaN`. -/
def numSub : Option Int → Option Int → Option Int
  | some x, some y => some (x - y)
  | _, _ => none

/-! ## `Array.prototype.sort` -/

/-- ECMA-262 `SortCompare` with a comparator: a `NaN` result counts as `0`. -/
def sortCompare {α : Type} (comparefn : α → α → Option Int) (x y : α) : Int :=
  (comparefn x y).getD 0

/-- The sorted contents of an array after `sort(comparefn)`: a stable sort, here by
insertion, `x` going before the first `y` with `comparefn(x, y) <= 0`. -/
def arraySort {α : Type} (comparefn : α → α → Option Int) (xs : List α) : List α :=
  xs.insertionSort (fun x y => sortCompare comparefn x y ≤ 0)

/-- The method `slice(0, n)`: a negative `n` counts from the end. -/
def sliceFromStart {α : Type} (xs : List α) (n : Int) : List α :=
  if n < 0 then xs.take (Int.toNat ((xs.length : Int) + n)) else xs.take (Int.toNat n)

/-! ## Records -/

/-- An appointment as the client reads it. The service reads `dateTime`, the appointments
page reads `appointmentDate`; each holds the time value of `new Date(field)`. A missing
`duration` is `none`. -/
structure Appointment where
  id : Nat
  dateTime : Option Int
  appointmentDate : Option Int
  duration : Option Int
  status : String
  deriving DecidableEq, Repr

/-- A notification as the client reads it. -/
structure Notification where
  id : Nat
  title : String
  content : String
  type : String
  priority : String
  timestamp : Option Int
  isRead : Bool
  isStarred : Bool
  deriving DecidableEq, Repr

/-- The file attached to a chat message; `description` may be missing. -/
structure FileDescriptor where
  name : String
  description : Option String
  deriving DecidableEq, Repr

/-- A chat message as the client reads it. -/
structure ChatMessage where
  id : Nat
  content : String
  timestamp : Option Int
  isFromUser : Bool
  isStarred : Bool
  messageType : String
  file : Option FileDescriptor
  deriving DecidableEq, Repr

/-- The outcome of an HTTP `get`: a thrown error, or a response whose `data` may be
missing. -/
abbrev Response (α : Type) := Except JsError (Option (List α))

/-! ## Strings -/

/-- The method `toLowerCase()`, on the ASCII letters. -/
def toLowerCase (s : String) : String := String.mk (s.toList.map Char.toLower)

/-- The code points of the lower-cased text, ECMA-262 `String.prototype.toLowerCase`:
every code point `c` is replaced by its lower-case mapping in the Unicode tables, here
`mapping before c after`, which may be several code points long and may depend on the code
points before and after `c` (the final-sigma rule of `SpecialCasing.txt`). -/
def lowerCodePoints (mapping : List Char → Char → List Char → List Char) :
    List Char → List Char → List Char
  | _, [] => []
  | before, c :: after =>
    mapping before c after ++ lowerCodePoints mapping (before ++ [c]) after

/-- The method `toLowerCase()` over the lower-case mapping `mapping` of the host. -/
def toLowerCaseWith (mapping : List Char → Char → List Char → List Char) (s : String) :
    String :=
  String.mk (lowerCodePoints mapping [] s.toList)

/-- The lower-case mapping restricted to ASCII: `A`..`Z` go to `a`..`z`, every other code
point is left alone. -/
def asciiLowerMapping : List Char → Char → List Char → List Char :=
  fun _ c _ => [c.toLower]

/-- A lower-case mapping that also knows the letter `É`, mapped to `é`. -/
def sampleLowerMapping : List Char → Char → List Char → List Char :=
  fun _ c _ => if c = 'É' then ['é'] else [c.toLower]

/-- The code points that `trim()` removes: ECMA-262 white space and line terminators. -/
def isWhiteSpace (c : Char) : Bool :=
  let n := c.toNat
  n = 9 || n = 10 || n = 11 || n = 12 || n = 13 || n = 32 || n = 160 || n = 5760 ||
    (8192 ≤ n && n ≤ 8202) || n = 8232 || n = 8233 || n = 8239 || n = 8287 ||
    n = 12288 || n = 65279

/-- Truthiness of `s.trim()`: some character is left after trimming. -/
def trimIsTruthy (s : String) : Bool := s.toList.any (fun c => !isWhiteSpace c)

/-- Whether the list `t` starts the list `s`. -/
def startsWithChars : List Char → List Char → Bool
  | _, [] => true
  | [], _ :: _ => false
  | c :: cs, d :: ds => c == d && startsWithChars cs ds

/-- Whether `t` occurs in `s` as a contiguous run. -/
def includesChars : List Char → List Char → Bool
  | [], t => t.isEmpty
  | c :: cs, t => startsWithChars (c :: cs) t || includesChars cs t

/-- The method `s.includes(t)`. -/
def includes (s t : String) : Bool := includesChars s.toList t.toList

/-! ## `appointmentsService.js` -/

namespace AppointmentsService

/-- The method `getUserAppointments`: the response data, `[]` when the data is missing or
the request failed with status 404; any other error is thrown again. -/
def getUserAppointments (response : Response Appointment) :
    Except JsError (List Appointment) :=
  match response with
  | Except.ok data => Except.ok (data.getD [])
  | Except.error error =>
    if error.responseStatus = some 404 then Except.ok [] else Except.error error

/-- The method `getUpcomingAppointments`, with `now` the value of `new Date()`. -/
def getUpcomingAppointments (response : Response Appointment) (now : Int) :
    Except JsError (List Appointment) :=
  match getUserAppointments response with
  | Except.error error => Except.error error
  | Except.ok allAppointments =>
    Except.ok (arraySort (fun a b => numSub a.dateTime b.dateTime)
      (allAppointments.filter (fun appointment =>
        dateGe appointment.dateTime (some now) && appointment.status != "cancelled")))

/-- The method `getAppointmentsForDate`; `date` is the time value of `new Date(date)`. -/
def getAppointmentsForDate (tz : Int) (response : Response Appointment) (date : Option Int) :
    Except JsError (List Appointment) :=
  match getUserAppointments response with
  | Except.error error => Except.error error
  | Except.ok allAppointments =>
    let targetDate := toDateString tz date
    Except.ok (allAppointments.filter (fun appointment =>
      toDateString tz appointment.dateTime == targetDate))

/-- The expression `appointment.duration || 60`: 60 when the duration is missing or 0. -/
def durationOrDefault (duration : Option Int) : Int :=
  match duration with
  | none => 60
  | some d => if d = 0 then 60 else d

/-- ECMA-262 `TimeClip`, as `new Date(number)` applies it: a number beyond `±8.64e15`
milliseconds gives `NaN`, an `Invalid Date`. -/
def timeClip (t : Int) : Option Int :=
  if -8640000000000000 ≤ t ∧ t ≤ 8640000000000000 then some t else none

/-- The overlap test that `checkConflicts` applies to one existing appointment;
`existingEnd` is `new Date(existingStart.getTime() + (appointment.duration || 60) * 60000)`. -/
def overlaps (appointmentDate endTime : Option Int) (appointment : Appointment) : Bool :=
  let existingStart := appointment.dateTime
  let existingEnd := existingStart.bind
    (fun s => timeClip (s + durationOrDefault appointment.duration * 60000))
  (dateGe appointmentDate existingStart && dateLt appointmentDate existingEnd) ||
  (dateGt endTime existingStart && dateLe endTime existingEnd) ||
  (dateLe appointmentDate existingStart && dateGe endTime existingEnd)

/-- The `try` block of `checkConflicts`; `endTime` is
`new Date(appointmentDate.getTime() + duration * 60000)`. -/
def checkConflictsTry (tz : Int) (response : Response Appointment) (dateTime : Option Int)
    (duration : Option Int) : Except JsError Bool :=
  let duration := duration.getD 60
  let appointmentDate := dateTime
  let endTime := appointmentDate.bind (fun t => timeClip (t + duration * 60000))
  match toISODate appointmentDate with
  | Except.error error => Except.error error
  | Except.ok isoDate =>
    match getAppointmentsForDate tz response (parseIsoDate isoDate) with
    | Except.error error => Except.error error
    | Except.ok dayAppointments =>
      Except.ok (dayAppointments.any (overlaps appointmentDate endTime))

/-- The method `checkConflicts`: any error of the `try` block is caught and answered with
`false`. A missing `duration` argument is 60. -/
def checkConflicts (tz : Int) (response : Response Appointment) (dateTime : Option Int)
    (duration : Option Int) : Except JsError Bool :=
  match checkConflictsTry tz response dateTime duration with
  | Except.ok conflict => Except.ok conflict
  | Except.error _ => Except.ok false

end AppointmentsService

/-! ## `useAppointments.js` -/

namespace useAppointments

/-- Falsiness of `userId`: missing or the empty string. -/
def noUser (userId : Option String) : Bool :=
  match userId with
  | none => true
  | some u => u == ""

/-- The hook's `checkConflicts`. -/
def checkConflicts (tz : Int) (userId : Option String) (response : Response Appointment)
    (dateTime : Option Int) (duration : Option Int) : Except JsError Bool :=
  if noUser userId then Except.ok false
  else
    match AppointmentsService.checkConflicts tz response dateTime duration with
    | Except.ok conflict => Except.ok conflict
    | Except.error _ => Except.ok false

/-- The computed value `upcomingCount`. -/
def upcomingCount (appointments : List Appointment) (now : Int) : Nat :=
  (appointments.filter (fun app =>
    dateGe app.dateTime (some now) && app.status != "cancelled")).length

/-- The computed value `todayAppointments`. -/
def todayAppointments (tz : Int) (appointments : List Appointment) (now : Int) :
    List Appointment :=
  appointments.filter (fun app =>
    toDateString tz app.dateTime == toDateString tz (some now))

end useAppointments

/-! ## `useNotifications.js`, `useChat.js` -/

/-- The computed value `todayNotifications` of `useNotifications`. -/
def useNotifications.todayNotifications (tz : Int) (notifications : List Notification)
    (now : Int) : List Notification :=
  notifications.filter (fun notif =>
    toDateString tz notif.timestamp == toDateString tz (some now))

/-- The computed value `todayMessages` of `useChat`. -/
def useChat.todayMessages (tz : Int) (messages : List ChatMessage) (now : Int) :
    List ChatMessage :=
  messages.filter (fun msg => toDateString tz msg.timestamp == toDateString tz (some now))

/-! ## `EnhancedAppointmentsPage.jsx` -/

/-- What a call of `getFilteredAppointments` leaves behind: the array it returns and the
contents of the component's `appointments` array after the call. -/
structure FilteredOutcome where
  returned : List Appointment
  appointments : Option (List Appointment)
  deriving DecidableEq, Repr

/-- The date-range predicate of `getFilteredAppointments`, with `now` the value of
`new Date()`. The two `setDate` calls move the `now` object itself: first to the Sunday of
its week, then to the Saturday; the month bounds are read from the moved object. -/
def inDateRange (tz : Int) (dateRange : String) (now : Int) (apt : Appointment) : Bool :=
  let now1 := setDate tz now (getDate tz now - getDay tz now)
  let startOfWeek := now1
  let now2 := setDate tz now1 (getDate tz now1 - getDay tz now1 + 6)
  let endOfWeek := now2
  let startOfMonth := newDateOfFields tz (getFullYear tz now2) (getMonth tz now2) 1
  let endOfMonth := newDateOfFields tz (getFullYear tz now2) (getMonth tz now2 + 1) 0
  let aptDate := apt.appointmentDate
  if dateRange = "today" then toDateString tz aptDate == toDateString tz (some now)
  else if dateRange = "week" then
    dateGe aptDate (some startOfWeek) && dateLe aptDate (some endOfWeek)
  else if dateRange = "month" then
    dateGe aptDate (some startOfMonth) && dateLe aptDate (some endOfMonth)
  else true

/-- The page's `getFilteredAppointments`. `filtered` starts as the `appointments` array
itself and becomes a new array only when a `filter` call runs; the final `sort` works in
place on whatever `filtered` is. -/
def getFilteredAppointments (tz : Int) (appointments : Option (List Appointment))
    (filter dateRange : String) (now : Int) : FilteredOutcome :=
  match appointments with
  | none => ⟨[], none⟩
  | some apps =>
    let byStatus := if filter ≠ "all" then apps.filter (fun apt => apt.status == filter) else apps
    let filtered :=
      if dateRange ≠ "all" then byStatus.filter (inDateRange tz dateRange now) else byStatus
    let sorted := arraySort (fun a b => numSub a.appointmentDate b.appointmentDate) filtered
    let isSameArray := decide (filter = "all") && decide (dateRange = "all")
    ⟨sorted, some (if isSameArray then sorted else apps)⟩

/-! ## `NotificationsPanel.jsx` -/

namespace NotificationsPanel

/-- The names every object inherits from `Object.prototype`: looked up in the literal
`priorityOrder` they yield a function or an object, not a number. -/
def inheritedKeys : List String :=
  ["constructor", "hasOwnProperty", "isPrototypeOf", "propertyIsEnumerable",
   "toLocaleString", "toString", "valueOf", "__proto__", "__defineGetter__",
   "__defineSetter__", "__lookupGetter__", "__lookupSetter__"]

/-- The number that `priorityOrder[p] || 0` contributes to the subtraction, with
`priorityOrder = { high: 3, medium: 2, low: 1 }`: `NaN` for an inherited name. -/
def priorityValue (p : String) : Option Int :=
  if p = "high" then some 3
  else if p = "medium" then some 2
  else if p = "low" then some 1
  else if p ∈ inheritedKeys then none
  else some 0

/-- The comparator handed to `result.sort`. -/
def comparator (sortOrder : String) (a b : Notification) : Option Int :=
  if sortOrder = "newest" then numSub b.timestamp a.timestamp
  else if sortOrder = "oldest" then numSub a.timestamp b.timestamp
  else if sortOrder = "priority" then numSub (priorityValue b.priority) (priorityValue a.priority)
  else some 0

/-- The switch over `selectedFilter`, on the copy of `notifications`. -/
def applyFilter (notifications unreadNotifications : List Notification)
    (selectedFilter : String) : List Notification :=
  if selectedFilter = "unread" then unreadNotifications
  else if selectedFilter = "starred" then notifications.filter (fun n => n.isStarred)
  else if selectedFilter ∈ ["appointment", "medication", "health", "system", "warning", "info"]
  then notifications.filter (fun n => n.type == selectedFilter)
  else notifications

/-- The search step: skipped when the trimmed term is empty. -/
def applySearch (searchTerm : String) (result : List Notification) : List Notification :=
  if trimIsTruthy searchTerm then
    let lowercaseSearch := toLowerCase searchTerm
    result.filter (fun n =>
      includes (toLowerCase n.title) lowercaseSearch ||
      includes (toLowerCase n.content) lowercaseSearch)
  else result

/-- What the filter effect leaves behind: the two state values it sets and the contents
of the two arrays it was given. -/
structure Outcome where
  filteredNotifications : List Notification
  starredNotifications : List Notification
  notifications : List Notification
  unreadNotifications : List Notification
  deriving DecidableEq, Repr

/-- The "filter and search notifications" effect. `result` starts as a copy of
`notifications`; with the filter `unread` it becomes the `unreadNotifications` array
itself, and stays so unless the search step builds a new array. -/
def filterEffect (notifications unreadNotifications : List Notification)
    (selectedFilter searchTerm sortOrder : String) : Outcome :=
  let result := applySearch searchTerm (applyFilter notifications unreadNotifications selectedFilter)
  let sorted := arraySort (comparator sortOrder) result
  let isUnreadArray := decide (selectedFilter = "unread") && !trimIsTruthy searchTerm
  ⟨sorted, notifications.filter (fun n => n.isStarred), notifications,
    if isUnreadArray then sorted else unreadNotifications⟩

end NotificationsPanel

/-! ## `ChatInterface.jsx`, `chatService.js` -/

/-- The "filter and search messages" effect of `ChatInterface`, with `now` the value of
`new Date()`; it works on a copy of `messages`. -/
def ChatInterface.filterEffect (tz : Int) (messages : List ChatMessage)
    (selectedFilter searchTerm : String) (now : Int) : List ChatMessage :=
  let result :=
    if selectedFilter = "starred" then messages.filter (fun msg => msg.isStarred)
    else if selectedFilter = "text" then messages.filter (fun msg => msg.messageType == "text")
    else if selectedFilter = "files" then
      messages.filter (fun msg => msg.file.isSome || msg.messageType != "text")
    else if selectedFilter = "today" then
      messages.filter (fun msg => toDateString tz msg.timestamp == toDateString tz (some now))
    else messages
  if trimIsTruthy searchTerm then
    let lowercaseSearch := toLowerCase searchTerm
    result.filter (fun msg =>
      includes (toLowerCase msg.content) lowercaseSearch ||
      (match msg.file with
       | some file =>
         (match file.description with
          | some description => includes (toLowerCase description) lowercaseSearch
          | none => false)
       | none => false))
  else result

namespace ChatService

/-- The method `getUserMessages`. -/
def getUserMessages (response : Response ChatMessage) : Except JsError (List ChatMessage) :=
  match response with
  | Except.ok data => Except.ok (data.getD [])
  | Except.error error =>
    if error.responseStatus = some 404 then Except.ok [] else Except.error error

/-- What `getRecentMessages` leaves behind: the array it returns and the contents of the
array that `getUserMessages` gave it. -/
structure RecentOutcome where
  returned : List ChatMessage
  allMessages : List ChatMessage
  deriving DecidableEq, Repr

/-- The method `getRecentMessages`: `sort` reorders `allMessages` in place, `slice` copies
the first `limit` entries. A missing `limit` is 50. -/
def getRecentMessages (response : Response ChatMessage) (limit : Option Int) :
    Except JsError RecentOutcome :=
  match getUserMessages response with
  | Except.error error => Except.error error
  | Except.ok allMessages =>
    let sorted := arraySort (fun a b => numSub b.timestamp a.timestamp) allMessages
    Except.ok ⟨sliceFromStart sorted (limit.getD 50), sorted⟩

end ChatService

/-! ## Further methods of `appointmentsService.js` and of the appointments page -/

namespace AppointmentsService

/-- The method `getPastAppointments`, with `now` the value of `new Date()`. -/
def getPastAppointments (response : Response Appointment) (now : Int) :
    Except JsError (List Appointment) :=
  match getUserAppointments response with
  | Except.error error => Except.error error
  | Except.ok allAppointments =>
    Except.ok (arraySort (fun a b => numSub b.dateTime a.dateTime)
      (allAppointments.filter (fun appointment => dateLt appointment.dateTime (some now))))

/-- The method `getAppointmentsByStatus`. -/
def getAppointmentsByStatus (response : Response Appointment) (status : String) :
    Except JsError (List Appointment) :=
  match getUserAppointments response with
  | Except.error error => Except.error error
  | Except.ok allAppointments =>
    Except.ok (allAppointments.filter (fun appointment => appointment.status == status))

/-- The method `getAppointmentsInRange`; `startDate` and `endDate` are the time values of
`new Date(startDate)` and `new Date(endDate)`. -/
def getAppointmentsInRange (response : Response Appointment) (startDate endDate : Option Int) :
    Except JsError (List Appointment) :=
  match getUserAppointments response with
  | Except.error error => Except.error error
  | Except.ok allAppointments =>
    Except.ok (allAppointments.filter (fun appointment =>
      dateGe appointment.dateTime startDate && dateLe appointment.dateTime endDate))

end AppointmentsService

/-- The page's own `getUpcomingAppointments`, with `now` the value of `new Date()`: the
first five of the scheduled or confirmed appointments after `now`, by date. -/
def EnhancedAppointmentsPage.getUpcomingAppointments (appointments : Option (List Appointment))
    (now : Int) : List Appointment :=
  match appointments with
  | none => []
  | some apps =>
    sliceFromStart
      (arraySort (fun a b => numSub a.appointmentDate b.appointmentDate)
        (apps.filter (fun apt =>
          dateGt apt.appointmentDate (some now) &&
            (apt.status == "scheduled" || apt.status == "confirmed"))))
      5

/-- The computed value `unreadNotifications` of `useNotifications`, which the panel is
given. -/
def useNotifications.unreadNotifications (notifications : List Notification) :
    List Notification :=
  notifications.filter (fun notif => !notif.isRead)

/-! ## `notificationService.js`, `recordsService.js`, `logService.js` -/

/-- A medical record as the client reads it. -/
structure Record where
  rid : Nat
  title : String
  description : String
  type : String
  entryTime : Option Int
  deriving DecidableEq, Repr

/-- A log event as the client reads it; `level` and `userId` may be missing. -/
structure LogEvent where
  id : Nat
  level : Option String
  message : String
  timestamp : Option Int
  userId : Option String
  deriving DecidableEq, Repr

namespace NotificationService

/-- The method `getUserNotifications`. -/
def getUserNotifications (response : Response Notification) :
    Except JsError (List Notification) :=
  match response with
  | Except.ok data => Except.ok (data.getD [])
  | Except.error error =>
    if error.responseStatus = some 404 then Except.ok [] else Except.error error

/-- The method `searchNotifications`; `lower` is the host's `toLowerCase()`. -/
def searchNotifications (lower : String → String) (response : Response Notification)
    (searchTerm : String) : Except JsError (List Notification) :=
  match getUserNotifications response with
  | Except.error error => Except.error error
  | Except.ok allNotifications =>
    let lowercaseSearch := lower searchTerm
    Except.ok (allNotifications.filter (fun notification =>
      includes (lower notification.title) lowercaseSearch ||
      includes (lower notification.content) lowercaseSearch))

end NotificationService

namespace RecordsService

/-- The method `getUserRecords`. -/
def getUserRecords (response : Response Record) : Except JsError (List Record) :=
  match response with
  | Except.ok data => Except.ok (data.getD [])
  | Except.error error =>
    if error.responseStatus = some 404 then Except.ok [] else Except.error error

/-- The method `searchRecords`; `lower` is the host's `toLowerCase()`. -/
def searchRecords (lower : String → String) (response : Response Record)
    (searchTerm : String) : Except JsError (List Record) :=
  match getUserRecords response with
  | Except.error error => Except.error error
  | Except.ok allRecords =>
    let lowercaseSearch := lower searchTerm
    Except.ok (allRecords.filter (fun record =>
      includes (lower record.title) lowercaseSearch ||
      includes (lower record.description) lowercaseSearch))

end RecordsService

/-- The method `getAllLogs` of `logService.js`. -/
def LogService.getAllLogs (response : Response LogEvent) : Except JsError (List LogEvent) :=
  match response with
  | Except.ok data => Except.ok (data.getD [])
  | Except.error error =>
    if error.responseStatus = some 404 then Except.ok [] else Except.error error

/-! ## `useAppointments.js`: the next appointment -/

/-- The computed value `nextAppointment`, with `now` the value of `new Date()`: `none` is
`null`. -/
def useAppointments.nextAppointment (appointments : List Appointment) (now : Int) :
    Option Appointment :=
  (arraySort (fun a b => numSub a.dateTime b.dateTime)
    (appointments.filter (fun app =>
      dateGe app.dateTime (some now) && app.status != "cancelled"))).head?

/-! ## `AppointmentForm.jsx`, `AppointmentDetails.jsx` -/

/-- The fields of the form state that `validateForm` reads. -/
structure AppointmentFormData where
  doctorId : String
  appointmentDate : String
  appointmentTime : String
  reason : String
  patientName : String
  deriving DecidableEq, Repr

/-- The object `newErrors`: a missing key is `none`. -/
structure FormErrors where
  doctorId : Option String
  appointmentDate : Option String
  appointmentTime : Option String
  reason : Option String
  patientName : Option String
  deriving DecidableEq, Repr

/-- The values `validateForm` leaves behind: the errors it sets and the boolean it
returns. -/
structure ValidationOutcome where
  errors : FormErrors
  valid : Bool
  deriving DecidableEq, Repr

/-- The function `validateForm`. `dateOfText` gives the time value of `new Date(text)`,
`role` is `user?.role` and `now` the value of `new Date()`. -/
def validateForm (dateOfText : String → Option Int) (formData : AppointmentFormData)
    (role : Option String) (now : Int) : ValidationOutcome :=
  let doctorIdError := if formData.doctorId = "" then some "Doctor is required" else none
  let dateError := if formData.appointmentDate = "" then some "Date is required" else none
  let timeRequired := if formData.appointmentTime = "" then some "Time is required" else none
  let reasonError := if formData.reason = "" then some "Reason is required" else none
  let patientNameError :=
    if formData.patientName = "" ∧ role ≠ some "patient" then some "Patient name is required"
    else none
  let timeError :=
    if formData.appointmentDate ≠ "" ∧ formData.appointmentTime ≠ "" then
      let appointmentDateTime :=
        dateOfText (formData.appointmentDate ++ "T" ++ formData.appointmentTime)
      if dateLe appointmentDateTime (some now) = true then
        some "Appointment must be in the future"
      else timeRequired
    else timeRequired
  let newErrors : FormErrors :=
    ⟨doctorIdError, dateError, timeError, reasonError, patientNameError⟩
  ⟨newErrors,
    newErrors.doctorId.isNone && newErrors.appointmentDate.isNone &&
      newErrors.appointmentTime.isNone && newErrors.reason.isNone &&
      newErrors.patientName.isNone⟩

/-- The function `getTimeUntilAppointment`, with `now` the value of `new Date()` and
`appointmentDate` the time value of `new Date(appointment.appointmentDate)`. With an
invalid date every number is `NaN`, no comparison holds and the last branch is taken. -/
def getTimeUntilAppointment (appointmentDate : Option Int) (now : Int) : String :=
  match appointmentDate with
  | none => "NaN minutes"
  | some aptTime =>
    let diffMs := aptTime - now
    if diffMs < 0 then "Past appointment"
    else
      let days := diffMs / (1000 * 60 * 60 * 24)
      let hours := (diffMs % (1000 * 60 * 60 * 24)) / (1000 * 60 * 60)
      let minutes := (diffMs % (1000 * 60 * 60)) / (1000 * 60)
      if days > 0 then toString days ++ " days, " ++ toString hours ++ " hours"
      else if hours > 0 then toString hours ++ " hours, " ++ toString minutes ++ " minutes"
      else toString minutes ++ " minutes"

/-! ## `useNotifications.js`: the unread count -/

namespace useNotifications

/-- The two state values of the hook that the mutations touch. -/
structure State where
  notifications : List Notification
  unreadCount : Int
  deriving DecidableEq, Repr

/-- The state after `markAsRead(notificationId)` when the request succeeds. -/
def markAsRead (st : State) (notificationId : Nat) : State :=
  ⟨st.notifications.map (fun notif =>
      if notif.id = notificationId then { notif with isRead := true } else notif),
    max 0 (st.unreadCount - 1)⟩

/-- The state after `markAsUnread(notificationId)` when the request succeeds. -/
def markAsUnread (st : State) (notificationId : Nat) : State :=
  ⟨st.notifications.map (fun notif =>
      if notif.id = notificationId then { notif with isRead := false } else notif),
    st.unreadCount + 1⟩

/-- The state after `deleteNotification(notificationId)` when the request succeeds. -/
def deleteNotification (st : State) (notificationId : Nat) : State :=
  let deletedNotif := st.notifications.find? (fun n => n.id == notificationId)
  ⟨st.notifications.filter (fun notif => notif.id != notificationId),
    match deletedNotif with
    | some n => if !n.isRead then max 0 (st.unreadCount - 1) else st.unreadCount
    | none => st.unreadCount⟩

/-- The state after `markAllAsRead()` when the request succeeds. -/
def markAllAsRead (st : State) : State :=
  ⟨st.notifications.map (fun notif => { notif with isRead := true }), 0⟩

/-- The state after `clearAllNotifications()` when the request succeeds. -/
def clearAllNotifications (_st : State) : State :=
  ⟨[], 0⟩

end useNotifications

/-! ## `ChatInput.jsx` -/

/-- The `length` of a JavaScript string: UTF-16 code units, two for a character beyond
the basic plane. -/
def jsLength (s : String) : Nat :=
  (s.toList.map (fun c => if c.toNat < 65536 then 1 else 2)).sum

namespace ChatInput

/-- The message after `handleInputChange` with the typed `value`. -/
def handleInputChange (maxLength : Nat) (message value : String) : String :=
  if jsLength value ≤ maxLength then value else message

/-- The message after `addEmoji(emoji)`. -/
def addEmoji (message emoji : String) : String :=
  message ++ emoji

/-- The message after `handleSubmit`: nothing is sent and nothing changes when the trimmed
message is empty and no file is selected; the message is cleared when sending succeeds
and kept when sending throws. -/
def handleSubmit (message : String) (selectedFiles : Nat) (sendSucceeds : Bool) : String :=
  if !trimIsTruthy message && selectedFiles == 0 then message
  else if sendSucceeds then "" else message

end ChatInput

/-! ## `logService.js`: levels and summary; `SystemLogsPage.jsx` -/

/-- ECMA-262 `HourFromTime(t)`. -/
def HourFromTime (t : Int) : Int := (t / 3600000) % 24

/-- The method `getHours()` of a valid `Date`. -/
def getHours (tz t : Int) : Int := HourFromTime (LocalTime tz t)

/-- The method `setHours(hour)` of a valid `Date`: the new time value. Minutes, seconds
and milliseconds of the local time are kept; an hour outside 0..23 carries into the
day. -/
def setHours (tz t hour : Int) : Int :=
  let lt := LocalTime tz t
  UTC tz (MakeDate (Day lt) (hour * 3600000 + TimeWithinDay lt % 3600000))

/-- The expression `log.level?.toLowerCase()`: `none` is `undefined`. -/
def levelLowerCase (log : LogEvent) : Option String := log.level.map toLowerCase

namespace LogService

/-- The method `getLogsByLevel`. -/
def getLogsByLevel (response : Response LogEvent) (level : String) :
    Except JsError (List LogEvent) :=
  match getAllLogs response with
  | Except.error error => Except.error error
  | Except.ok allLogs =>
    Except.ok (allLogs.filter (fun log => levelLowerCase log == some (toLowerCase level)))

/-- The method `getRecentLogs`, with `now` the value of `new Date()`; a missing `hours`
is 24. -/
def getRecentLogs (tz : Int) (response : Response LogEvent) (hours : Option Int) (now : Int) :
    Except JsError (List LogEvent) :=
  let hours := hours.getD 24
  let cutoffDate := setHours tz now (getHours tz now - hours)
  match getAllLogs response with
  | Except.error error => Except.error error
  | Except.ok allLogs =>
    Except.ok (arraySort (fun a b => numSub b.timestamp a.timestamp)
      (allLogs.filter (fun log => dateGe log.timestamp (some cutoffDate))))

/-- The object `byLevel` of the summary. -/
structure ByLevel where
  error : Nat
  warning : Nat
  info : Nat
  debug : Nat
  deriving DecidableEq, Repr

/-- The summary object; the two texts of `timeRange` are kept as their time values. -/
structure Summary where
  total : Nat
  byLevel : ByLevel
  timeRangeFrom : Int
  timeRangeTo : Int
  uniqueUsers : Nat
  deriving DecidableEq, Repr

/-- Truthiness of `log.userId`. -/
def userIdOf (log : LogEvent) : Option String :=
  match log.userId with
  | some u => if u = "" then none else some u
  | none => none

/-- The method `getLogsSummary`; a missing `hours` is 24. -/
def getLogsSummary (tz : Int) (response : Response LogEvent) (hours : Option Int) (now : Int) :
    Except JsError Summary :=
  match getRecentLogs tz response hours now with
  | Except.error error => Except.error error
  | Except.ok recentLogs =>
    Except.ok
      { total := recentLogs.length
        byLevel :=
          { error := (recentLogs.filter (fun log => log.level == some "error")).length
            warning := (recentLogs.filter (fun log => log.level == some "warning")).length
            info := (recentLogs.filter (fun log => log.level == some "info")).length
            debug := (recentLogs.filter (fun log => log.level == some "debug")).length }
        timeRangeFrom := now - hours.getD 24 * 60 * 60 * 1000
        timeRangeTo := now
        uniqueUsers := ((recentLogs.filterMap userIdOf).dedup).length }

end LogService

/-! ## IEEE 754 binary64 arithmetic

A double is the rational number it denotes. The exponent range is unbounded: there is no
overflow to `Infinity` and there are no subnormal numbers. -/

/-- The integer nearest to `q`; of two equally near integers, the even one. -/
def roundHalfEven (q : ℚ) : Int :=
  let f := Int.floor q
  if q - f < 1 / 2 then f
  else if 1 / 2 < q - f then f + 1
  else if f % 2 = 0 then f else f + 1

/-- The double nearest to the real number `x`, ties to the even significand: with
`2 ^ e ≤ |x| < 2 ^ (e + 1)`, the nearest multiple of `2 ^ (e - 52)`. -/
def roundToDouble (x : ℚ) : ℚ :=
  if x = 0 then 0
  else
    let ulp : ℚ := 2 ^ (Int.log 2 |x| - 52)
    roundHalfEven (x / ulp) * ulp

/-- The quotient `a / b` of two doubles, `b` not 0. -/
def doubleDiv (a b : ℚ) : ℚ := roundToDouble (a / b)

/-- The product `a * b` of two doubles. -/
def doubleMul (a b : ℚ) : ℚ := roundToDouble (a * b)

/-- The difference `a - b` of two doubles. -/
def doubleSub (a b : ℚ) : ℚ := roundToDouble (a - b)

/-! ## `SystemLogsPage.jsx` -/

namespace SystemLogsPage

/-- The accumulator of `calculateLogStats`: a key not yet set is `none`; `byLevel` lists
its keys in insertion order. A level that is the name of a member inherited from
`Object.prototype` is counted like any other here. -/
structure LogStats where
  total : Option Nat
  byLevel : Option (List (String × Nat))
  last24Hours : Option Nat
  lastWeek : Option Nat
  deriving DecidableEq, Repr

/-- The assignment `byLevel[level] = (byLevel[level] || 0) + 1`. -/
def bumpLevel : List (String × Nat) → String → List (String × Nat)
  | [], level => [(level, 1)]
  | (k, v) :: rest, level =>
    if k = level then (k, v + 1) :: rest else (k, v) :: bumpLevel rest level

/-- The read `byLevel[level]`, taken as 0 when the key is absent. -/
def levelCount : List (String × Nat) → String → Nat
  | [], _ => 0
  | (k, v) :: rest, level => if k = level then v else levelCount rest level

/-- The key under which `calculateLogStats` counts a log:
`log.level?.toLowerCase() || "unknown"`. -/
def levelKey (log : LogEvent) : String :=
  match levelLowerCase log with
  | some l => if l = "" then "unknown" else l
  | none => "unknown"

/-- One step of the `reduce` in `calculateLogStats`. -/
def statsStep (last24Hours lastWeek : Int) (stats : LogStats) (log : LogEvent) : LogStats :=
  let logDate := log.timestamp
  let level := levelKey log
  { total := some (stats.total.getD 0 + 1)
    byLevel := some (bumpLevel (stats.byLevel.getD []) level)
    last24Hours :=
      if dateGe logDate (some last24Hours) then some (stats.last24Hours.getD 0 + 1)
      else stats.last24Hours
    lastWeek :=
      if dateGe logDate (some lastWeek) then some (stats.lastWeek.getD 0 + 1)
      else stats.lastWeek }

/-- The function `calculateLogStats`, with `now` the value of `new Date()`. -/
def calculateLogStats (logs : List LogEvent) (now : Int) : LogStats :=
  let last24Hours := now - 24 * 60 * 60 * 1000
  let lastWeek := now - 7 * 24 * 60 * 60 * 1000
  logs.foldl (statsStep last24Hours lastWeek) ⟨none, none, none, none⟩

/-- The object returned by `calculateSystemHealth`. -/
structure SystemHealth where
  score : Int
  status : String
  errorCount : Nat
  warningCount : Nat
  totalEvents : Nat
  deriving DecidableEq, Repr

/-- The value of `healthScore` before the clamp, from the numbers of recent error, warning
and all logs; each of `/`, `*` and `-=` rounds its result to a double. -/
def rawHealthScore (errors warnings total : Nat) : ℚ :=
  let errorRate : ℚ := if total > 0 then doubleDiv errors total else 0
  let warningRate : ℚ := if total > 0 then doubleDiv warnings total else 0
  let healthScore : ℚ := 100
  let healthScore := doubleSub healthScore (doubleMul errorRate 50)
  let healthScore := doubleSub healthScore (doubleMul warningRate 20)
  healthScore

/-- The function `calculateSystemHealth`, with `now` the value of `new Date()`.
`Math.max`, `Math.min` and `<` are exact on doubles; `Math.round(x)` is the floor of
`x + 1/2`, computed exactly. -/
def calculateSystemHealth (logs : List LogEvent) (now : Int) : SystemHealth :=
  let last24Hours := now - 24 * 60 * 60 * 1000
  let recentLogs := logs.filter (fun log => dateGe log.timestamp (some last24Hours))
  let errorLogs := recentLogs.filter (fun log => levelLowerCase log == some "error")
  let warningLogs := recentLogs.filter (fun log => levelLowerCase log == some "warning")
  let healthScore : ℚ :=
    max 0 (min 100 (rawHealthScore errorLogs.length warningLogs.length recentLogs.length))
  let status :=
    if healthScore < 60 then "poor"
    else if healthScore < 80 then "fair"
    else if healthScore < 95 then "good"
    else "excellent"
  { score := Int.floor (healthScore + 1 / 2)
    status := status
    errorCount := errorLogs.length
    warningCount := warningLogs.length
    totalEvents := recentLogs.length }

end SystemLogsPage

/-! ## Specification-side predicates and sample data -/

/-- Specification side of "same calendar date as now": the time value is valid and its
local day number equals that of `now`. -/
def sameLocalDaySpec (tz now : Int) : Option Int → Bool
  | some t => decide ((t + tz * 60000) / 86400000 = (now + tz * 60000) / 86400000)
  | none => false

/-- Specification side of "upcoming": a valid timestamp at or after `now` and a status
other than `cancelled`. -/
def upcomingSpec (now : Int) (a : Appointment) : Bool :=
  match a.dateTime with
  | some t => decide (now ≤ t) && decide (a.status ≠ "cancelled")
  | none => false

/-- Specification side of "past": a valid timestamp before `now`. -/
def pastSpec (now : Int) (a : Appointment) : Bool :=
  match a.dateTime with
  | some t => decide (t < now)
  | none => false

/-- Specification side of "given the default duration": an appointment without a duration
gets the duration 60. -/
def withDefaultDuration (a : Appointment) : Appointment :=
  match a.duration with
  | none => { a with duration := some 60 }
  | some _ => a

/-- Specification side of the half-open interval test: the candidate starts before the
existing appointment ends and the existing appointment starts before the candidate ends. -/
def halfOpenOverlapSpec (candidateStart candidateEnd existingStart existingEnd : Int) : Bool :=
  decide (candidateStart < existingEnd ∧ existingStart < candidateEnd)

/-- What `checkConflicts` reads of an appointment: its start and its duration. -/
def conflictFields (a : Appointment) : Option Int × Option Int := (a.dateTime, a.duration)

/-- Specification side of the badge: the number of notifications with `isRead` false. -/
def unreadNumber (notifications : List Notification) : Int :=
  (notifications.countP (fun n => !n.isRead) : Nat)

/-- A read notification with the given id. -/
def readNotification (id : Nat) : Notification :=
  ⟨id, "t", "c", "info", "low", some 0, true, false⟩

/-- The rank of a priority label under the table `{ high: 3, medium: 2, low: 1 }` of
`NotificationsPanel.jsx`: any other label has rank 0. -/
def priorityRank (p : String) : Int :=
  if p = "high" then 3 else if p = "medium" then 2 else if p = "low" then 1 else 0

/-- An appointment with the given id, start (in both date fields) and duration in
minutes, with status `scheduled`. -/
def appointmentAt (id : Nat) (start : Int) (duration : Int) : Appointment :=
  ⟨id, some start, some start, some duration, "scheduled"⟩

/-- A chat message with the given id and timestamp. -/
def messageAt (id : Nat) (timestamp : Int) : ChatMessage :=
  ⟨id, "hello", some timestamp, true, false, "text", none⟩

/-- An unread notification of low priority with the given id and timestamp. -/
def notificationAt (id : Nat) (timestamp : Int) : Notification :=
  ⟨id, "t", "c", "info", "low", some timestamp, false, false⟩

/-- A notification with the given id and priority, at time 0. -/
def notificationWithPriority (id : Nat) (priority : String) : Notification :=
  ⟨id, "t", "c", "info", priority, some 0, false, false⟩

/-- A log event with the given id, level and timestamp. -/
def logAt (id : Nat) (level : String) (timestamp : Int) : LogEvent :=
  ⟨id, some level, "", some timestamp, none⟩

/-! ## Calendar lemmas -/

/-- The computed year is the one ECMA-262 asks for: the largest `y` whose first day is
not after day `d`. -/
theorem yearFromDay_spec (d : Int) :
    DayFromYear (yearFromDay d) ≤ d ∧ d < DayFromYear (yearFromDay d + 1) := by
  unfold yearFromDay
  simp only
  split_ifs with h1 h2
  · refine ⟨h1, ?_⟩
    unfold DayFromYear at *
    omega
  · exact ⟨h2, by omega⟩
  · refine ⟨?_, ?_⟩
    · unfold DayFromYear at *
      omega
    · have : (1970 + 400 * d / 146097 - 1 + 1) = 1970 + 400 * d / 146097 := by ring
      rw [this]; omega

/-- The day number is recovered from year, month and day of the month. -/
theorem day_eq_of_fields (x : Int) :
    Day x = DayFromYear (YearFromTime x) +
      (DateFromTime x + monthStart (MonthFromTime x) (inLeapYear (YearFromTime x)) - 1) := by
  unfold DateFromTime DayWithinYear
  ring

/-- Two valid dates print the same `toDateString` text exactly when their local day
numbers agree. -/
theorem toDateString_some_eq_iff (tz a b : Int) :
    toDateString tz (some a) = toDateString tz (some b) ↔
      Day (LocalTime tz a) = Day (LocalTime tz b) := by
  constructor
  · intro h
    simp only [toDateString, DateString.text.injEq] at h
    obtain ⟨-, hm, hd, hy⟩ := h
    rw [day_eq_of_fields (LocalTime tz a), day_eq_of_fields (LocalTime tz b), hm, hd, hy]
  · intro h
    simp only [toDateString, WeekDay, MonthFromTime, DateFromTime, DayWithinYear, YearFromTime, h]

/-- Comparing a date's `toDateString` text with that of `now` is the same-local-day test. -/
theorem toDateString_beq_now (tz now : Int) (d : Option Int) :
    (toDateString tz d == toDateString tz (some now)) = sameLocalDaySpec tz now d := by
  cases d with
  | none => simp [toDateString, sameLocalDaySpec]
  | some t =>
    have h := toDateString_some_eq_iff tz t now
    simp only [Day, LocalTime, msPerDay, msPerMinute] at h
    simp only [sameLocalDaySpec, beq_iff_eq, h, Bool.decide_eq_true, eq_iff_iff]
    by_cases hh : (t + tz * 60000) / 86400000 = (now + tz * 60000) / 86400000 <;> simp [hh, h]

/-! ## Sorting lemmas -/

/-- Ordered insertion only looks at the relation between the new element and the list. -/
theorem orderedInsert_congr {α : Type} (r r' : α → α → Prop) [DecidableRel r] [DecidableRel r']
    (a : α) (l : List α) (h : ∀ b ∈ l, (r a b ↔ r' a b)) :
    l.orderedInsert r a = l.orderedInsert r' a := by
  induction l with
  | nil => rfl
  | cons b l ih =>
    have hb : r a b ↔ r' a b := h b (List.mem_cons_self b l)
    have ih' := ih (fun c hc => h c (List.mem_cons_of_mem b hc))
    by_cases hr : r a b
    · simp [List.orderedInsert, hr, hb.1 hr]
    · have hr' : ¬ r' a b := fun h' => hr (hb.2 h')
      simp [List.orderedInsert, hr, hr', ih']

/-- Insertion sort only looks at the relation between elements of the list. -/
theorem insertionSort_congr {α : Type} (r r' : α → α → Prop) [DecidableRel r] [DecidableRel r']
    (l : List α) (h : ∀ a ∈ l, ∀ b ∈ l, (r a b ↔ r' a b)) :
    l.insertionSort r = l.insertionSort r' := by
  induction l with
  | nil => rfl
  | cons a l ih =>
    have ih' := ih (fun x hx y hy => h x (List.mem_cons_of_mem a hx) y (List.mem_cons_of_mem a hy))
    simp only [List.insertionSort]
    rw [ih']
    apply orderedInsert_congr
    intro b hb
    rw [List.mem_insertionSort] at hb
    exact h a (List.mem_cons_self a l) b (List.mem_cons_of_mem a hb)

/-! ## The conflict detector -/

/-- With one fetched appointment that fails the overlap test, `checkConflicts` answers
`false`, whether or not the day filter keeps the appointment. -/
theorem checkConflicts_single (tz : Int) (a : Appointment) (s : Int) (duration : Option Int)
    (h : AppointmentsService.overlaps (some s)
      (AppointmentsService.timeClip (s + duration.getD 60 * 60000)) a = false) :
    AppointmentsService.checkConflicts tz (Except.ok (some [a])) (some s) duration
      = Except.ok false := by
  unfold AppointmentsService.checkConflicts AppointmentsService.checkConflictsTry
  simp only [toISODate, AppointmentsService.getAppointmentsForDate,
    AppointmentsService.getUserAppointments, Option.getD_some, Option.some_bind]
  by_cases hk : (toDateString tz a.dateTime ==
      toDateString tz (parseIsoDate ⟨YearFromTime s, MonthFromTime s + 1, DateFromTime s⟩)) = true
  · simp [List.filter, hk, h]
  · simp [List.filter, hk]

/-- A conditional between two values of a range lies in the range. -/
theorem ite_within (lo hi : Int) (c : Prop) [Decidable c] (a b : Int)
    (ha : lo ≤ a ∧ a ≤ hi) (hb : lo ≤ b ∧ b ≤ hi) :
    lo ≤ (if c then a else b) ∧ (if c then a else b) ≤ hi := by
  by_cases h : c
  · rw [if_pos h]; exact ha
  · rw [if_neg h]; exact hb

/-- The month of a time value lies in 0..11. -/
theorem monthFromTime_range (x : Int) : 0 ≤ MonthFromTime x ∧ MonthFromTime x ≤ 11 := by
  have h : ∀ dwy leap : Int, 0 ≤ monthFromDayWithinYear dwy leap ∧
      monthFromDayWithinYear dwy leap ≤ 11 := by
    intro dwy leap
    unfold monthFromDayWithinYear
    repeat' apply ite_within
    all_goals exact ⟨by decide, by decide⟩
  exact h _ _

/-- The fields that `toISOString` prints name the UTC day they were read from. -/
theorem makeDay_of_fields (x : Int) :
    MakeDay (YearFromTime x) (MonthFromTime x) (DateFromTime x) = Day x := by
  have hr := monthFromTime_range x
  have h1 : MonthFromTime x / 12 = 0 := by omega
  have h2 : MonthFromTime x % 12 = MonthFromTime x := by omega
  unfold MakeDay
  simp only [h1, h2, add_zero]
  rw [day_eq_of_fields x]
  ring

/-- The day that `checkConflicts` asks for: UTC midnight of the candidate's UTC day. -/
theorem parseIsoDate_of_toISODate (s : Int) :
    parseIsoDate ⟨YearFromTime s, MonthFromTime s + 1, DateFromTime s⟩
      = some (Day s * msPerDay) := by
  simp only [parseIsoDate, add_sub_cancel_right, makeDay_of_fields, MakeDate, add_zero]

/-- What `checkConflicts` computes on a fetched list and a valid candidate start: the
overlap test over the appointments whose local day is the local day of UTC midnight of
the candidate's UTC day. -/
theorem checkConflicts_eq_any (tz : Int) (xs : List Appointment) (s : Int)
    (duration : Option Int) :
    AppointmentsService.checkConflicts tz (Except.ok (some xs)) (some s) duration
      = Except.ok ((xs.filter (fun a => sameLocalDaySpec tz (Day s * msPerDay) a.dateTime)).any
          (AppointmentsService.overlaps (some s)
            (AppointmentsService.timeClip (s + duration.getD 60 * 60000)))) := by
  unfold AppointmentsService.checkConflicts AppointmentsService.checkConflictsTry
  simp only [toISODate, AppointmentsService.getAppointmentsForDate,
    AppointmentsService.getUserAppointments, Option.getD_some, Option.some_bind,
    parseIsoDate_of_toISODate, toDateString_beq_now]

/-- In UTC the day filter keeps the appointments on the candidate's day. -/
theorem sameLocalDaySpec_utc_midnight (s : Int) (d : Option Int) :
    sameLocalDaySpec 0 (Day s * msPerDay) d = sameLocalDaySpec 0 s d := by
  cases d with
  | none => rfl
  | some t =>
    simp only [sameLocalDaySpec, Day, msPerDay]
    congr 1
    apply propext
    constructor <;> intro h <;> omega

/-- The statement of claim C1 holds when local time is UTC: a fetched appointment on the
candidate's day whose interval contains the candidate's start, and whose end is a time
value, gives `true`. -/
theorem checkConflicts_detects_start_overlap_utc (xs : List Appointment) (a : Appointment)
    (S s : Int) (duration : Option Int) (ha : a ∈ xs) (hS : a.dateTime = some S)
    (hday : S / 86400000 = s / 86400000) (h1 : S ≤ s)
    (h2 : s < S + AppointmentsService.durationOrDefault a.duration * 60000)
    (hclip : -8640000000000000 ≤ S + AppointmentsService.durationOrDefault a.duration * 60000 ∧
      S + AppointmentsService.durationOrDefault a.duration * 60000 ≤ 8640000000000000) :
    AppointmentsService.checkConflicts 0 (Except.ok (some xs)) (some s) duration
      = Except.ok true := by
  rw [checkConflicts_eq_any]
  congr 1
  rw [List.any_eq_true]
  refine ⟨a, ?_, ?_⟩
  · rw [List.mem_filter]
    refine ⟨ha, ?_⟩
    rw [sameLocalDaySpec_utc_midnight, hS]
    simp [sameLocalDaySpec, hday]
  · simp only [AppointmentsService.overlaps, hS, Option.some_bind,
      AppointmentsService.timeClip, if_pos hclip, dateGe, dateLt]
    simp [h1, h2]

/-- The statement of claim C3 holds when local time is UTC: when no fetched appointment
lies on the candidate's day the answer is `false`. -/
theorem checkConflicts_other_days_false_utc (xs : List Appointment) (s : Int)
    (duration : Option Int)
    (h : ∀ a ∈ xs, ∀ S, a.dateTime = some S → S / 86400000 ≠ s / 86400000) :
    AppointmentsService.checkConflicts 0 (Except.ok (some xs)) (some s) duration
      = Except.ok false := by
  rw [checkConflicts_eq_any]
  congr 1
  have hnil : xs.filter (fun a => sameLocalDaySpec 0 (Day s * msPerDay) a.dateTime) = [] := by
    rw [List.filter_eq_nil_iff]
    intro a ha
    rw [sameLocalDaySpec_utc_midnight]
    cases hd : a.dateTime with
    | none => simp [sameLocalDaySpec]
    | some S => simp [sameLocalDaySpec, h a ha S hd]
  rw [hnil]
  rfl

/-- Claim C1, evaluated on the code at a failing input. In a zone five hours west of UTC,
appointment A at 10:00 local time on Monday 15 January 2024 for 60 minutes and candidate B
at 10:30 the same local day: both print the same `toDateString` text and A's interval
contains B's start, yet `checkConflicts` answers `false`, because the day it asks for is
the local date of UTC midnight of B's UTC date, which is 14 January. -/
theorem checkConflicts_misses_overlap_west_of_utc :
    toDateString (-300) (appointmentAt 1 1705330800000 60).dateTime
        = toDateString (-300) (some 1705332600000) ∧
    toDateString (-300) (some 1705332600000) = DateString.text 1 0 15 2024 ∧
    ((1705330800000 : Int) ≤ 1705332600000 ∧
      (1705332600000 : Int) < 1705330800000 + 60 * 60000) ∧
    toISODate (some 1705332600000) = Except.ok ⟨2024, 1, 15⟩ ∧
    toDateString (-300) (parseIsoDate ⟨2024, 1, 15⟩) = DateString.text 0 0 14 2024 ∧
    AppointmentsService.checkConflicts (-300)
        (Except.ok (some [appointmentAt 1 1705330800000 60])) (some 1705332600000) (some 30)
      = Except.ok false := by
  refine ⟨by decide, by decide, by decide, by rfl, by decide, by rfl⟩

/-- Claim C2. Touching intervals are not conflicts: for every zone offset, every candidate
of positive duration (60 minutes when none is passed) and a single fetched appointment
with a valid start and positive duration (60 minutes when it has none), `checkConflicts`
answers `false` when the candidate starts exactly at the appointment's end, and answers
`false` when the candidate ends exactly at the appointment's start. -/
theorem checkConflicts_touching_false (tz : Int) (a : Appointment) (S s : Int)
    (duration : Option Int) (hS : a.dateTime = some S)
    (hDpos : 0 < AppointmentsService.durationOrDefault a.duration)
    (hd : 0 < duration.getD 60) :
    (s = S + AppointmentsService.durationOrDefault a.duration * 60000 →
      AppointmentsService.checkConflicts tz (Except.ok (some [a])) (some s) duration
        = Except.ok false) ∧
    (s + duration.getD 60 * 60000 = S →
      AppointmentsService.checkConflicts tz (Except.ok (some [a])) (some s) duration
        = Except.ok false) := by
  constructor
  · intro hs
    apply checkConflicts_single
    simp only [AppointmentsService.overlaps, hS, Option.some_bind,
      AppointmentsService.timeClip]
    split_ifs <;>
      simp only [dateGe, dateLt, dateGt, dateLe, Bool.or_eq_false_iff, Bool.and_eq_false_iff,
        decide_eq_false_iff_not, Bool.and_false, Bool.false_and, Bool.or_false, and_self,
        and_true, true_and] <;>
      omega
  · intro hs
    apply checkConflicts_single
    simp only [AppointmentsService.overlaps, hS, Option.some_bind,
      AppointmentsService.timeClip]
    split_ifs <;>
      simp only [dateGe, dateLt, dateGt, dateLe, Bool.or_eq_false_iff, Bool.and_eq_false_iff,
        decide_eq_false_iff_not, Bool.and_false, Bool.false_and, Bool.or_false, and_self,
        and_true, true_and] <;>
      omega

/-- Claim C2 at a concrete input, in UTC: A at 10:00 on 15 January 2024 for 60 minutes is
kept by the day filter; candidate C at 11:00 for 30 minutes and a candidate at 09:30 for
30 minutes both get `false`. -/
theorem checkConflicts_touching_false_witness :
    (0 < AppointmentsService.durationOrDefault (appointmentAt 1 1705312800000 60).duration ∧
      0 < (some (30 : Int)).getD 60) ∧
    AppointmentsService.getAppointmentsForDate 0
        (Except.ok (some [appointmentAt 1 1705312800000 60])) (parseIsoDate ⟨2024, 1, 15⟩)
      = Except.ok [appointmentAt 1 1705312800000 60] ∧
    AppointmentsService.checkConflicts 0
        (Except.ok (some [appointmentAt 1 1705312800000 60])) (some 1705316400000) (some 30)
      = Except.ok false ∧
    AppointmentsService.checkConflicts 0
        (Except.ok (some [appointmentAt 1 1705312800000 60])) (some 1705311000000) (some 30)
      = Except.ok false :=
  ⟨⟨by decide, by decide⟩, by rfl,
    (checkConflicts_touching_false 0 (appointmentAt 1 1705312800000 60) 1705312800000
      1705316400000 (some 30) rfl (by decide) (by decide)).1 (by decide),
    (checkConflicts_touching_false 0 (appointmentAt 1 1705312800000 60) 1705312800000
      1705311000000 (some 30) rfl (by decide) (by decide)).2 (by decide)⟩

/-- Claim C3, evaluated on the code at a failing input. In a zone five hours west of UTC,
the only fetched appointment is at 23:30 local time on Sunday 14 January 2024 for 60
minutes and the candidate is at 00:15 local time on Monday 15 January: no fetched
appointment lies on the candidate's local day, yet `checkConflicts` answers `true`. -/
theorem checkConflicts_other_day_conflict_west_of_utc :
    toDateString (-300) (appointmentAt 1 1705293000000 60).dateTime
        = DateString.text 0 0 14 2024 ∧
    toDateString (-300) (some 1705295700000) = DateString.text 1 0 15 2024 ∧
    AppointmentsService.checkConflicts (-300)
        (Except.ok (some [appointmentAt 1 1705293000000 60])) (some 1705295700000) (some 30)
      = Except.ok true := by
  refine ⟨by decide, by decide, by rfl⟩

/-- Claim C4. When the appointments request throws, whatever the error, the candidate
start and the duration, the service's `checkConflicts` returns `false` and throws
nothing, and so does the hook's `checkConflicts`. -/
theorem checkConflicts_fetch_error_false (tz : Int) (error : JsError) (userId : Option String)
    (dateTime duration : Option Int) :
    AppointmentsService.checkConflicts tz (Except.error error) dateTime duration
        = Except.ok false ∧
    useAppointments.checkConflicts tz userId (Except.error error) dateTime duration
        = Except.ok false := by
  have h : AppointmentsService.checkConflicts tz (Except.error error) dateTime duration
      = Except.ok false := by
    unfold AppointmentsService.checkConflicts AppointmentsService.checkConflictsTry
    cases dateTime with
    | none => simp [toISODate]
    | some t =>
      by_cases h404 : error.responseStatus = some 404 <;>
        simp [toISODate, AppointmentsService.getAppointmentsForDate,
          AppointmentsService.getUserAppointments, h404]
  refine ⟨h, ?_⟩
  unfold useAppointments.checkConflicts
  rw [h]
  split <;> rfl

/-! ## Upcoming appointments -/

/-- The filter predicate of the code is the specification's "upcoming" predicate. -/
theorem upcoming_pred_eq (now : Int) (a : Appointment) :
    (dateGe a.dateTime (some now) && a.status != "cancelled") = upcomingSpec now a := by
  unfold upcomingSpec
  cases h : a.dateTime with
  | none => simp [dateGe]
  | some t => by_cases hc : a.status = "cancelled" <;> simp [dateGe, hc]

/-- The "upcoming" predicate, spelled out. -/
theorem upcomingSpec_iff (now : Int) (a : Appointment) :
    upcomingSpec now a = true ↔
      ∃ t, a.dateTime = some t ∧ now ≤ t ∧ a.status ≠ "cancelled" := by
  unfold upcomingSpec
  cases h : a.dateTime with
  | none => simp
  | some t => simp

/-- Claim C5. For every appointment list and every `now`, `getUpcomingAppointments`
returns a rearrangement of exactly the appointments whose timestamp is valid and at or
after `now` and whose status is not `cancelled`, and `upcomingCount` is their number; an
appointment before `now` is left out whatever its status, and a cancelled one is left out
whatever its timestamp. -/
theorem upcoming_exactly (xs : List Appointment) (now : Int) :
    ∃ ys, AppointmentsService.getUpcomingAppointments (Except.ok (some xs)) now = Except.ok ys ∧
      ys.Perm (xs.filter (fun a => upcomingSpec now a)) ∧
      useAppointments.upcomingCount xs now = xs.countP (fun a => upcomingSpec now a) ∧
      (∀ a, a ∈ ys ↔ a ∈ xs ∧ ∃ t, a.dateTime = some t ∧ now ≤ t ∧ a.status ≠ "cancelled") ∧
      (∀ a ∈ xs, ∀ t, a.dateTime = some t → t < now → a ∉ ys) ∧
      (∀ a ∈ xs, a.status = "cancelled" → a ∉ ys) := by
  have hperm : (arraySort (fun a b : Appointment => numSub a.dateTime b.dateTime)
      (xs.filter (fun a => upcomingSpec now a))).Perm (xs.filter (fun a => upcomingSpec now a)) :=
    List.perm_insertionSort _ _
  have hmem : ∀ a, a ∈ arraySort (fun a b : Appointment => numSub a.dateTime b.dateTime)
      (xs.filter (fun a => upcomingSpec now a)) ↔
      a ∈ xs ∧ ∃ t, a.dateTime = some t ∧ now ≤ t ∧ a.status ≠ "cancelled" := by
    intro a
    rw [hperm.mem_iff, List.mem_filter, upcomingSpec_iff]
  refine ⟨_, ?_, hperm, ?_, hmem, ?_, ?_⟩
  · simp only [AppointmentsService.getUpcomingAppointments,
      AppointmentsService.getUserAppointments, Option.getD_some, upcoming_pred_eq]
  · simp only [useAppointments.upcomingCount, upcoming_pred_eq, List.countP_eq_length_filter]
  · intro a _ t ht hlt hin
    obtain ⟨-, t', ht', hle, -⟩ := (hmem a).1 hin
    rw [ht] at ht'
    cases ht'
    omega
  · intro a _ hc hin
    obtain ⟨-, _, _, _, hne⟩ := (hmem a).1 hin
    exact hne hc

/-! ## Sorting by priority -/

/-- A priority label that is not an inherited member name contributes its rank. -/
theorem priorityValue_of_not_inherited (p : String)
    (h : p ∉ NotificationsPanel.inheritedKeys) :
    NotificationsPanel.priorityValue p = some (priorityRank p) := by
  unfold NotificationsPanel.priorityValue priorityRank
  split_ifs <;> rfl

/-- Whatever the filter and the search term, the array that gets sorted holds only
elements of `notifications` or of `unreadNotifications`. -/
theorem mem_applySearch_applyFilter (notifications unreadNotifications : List Notification)
    (selectedFilter searchTerm : String) (n : Notification)
    (h : n ∈ NotificationsPanel.applySearch searchTerm
      (NotificationsPanel.applyFilter notifications unreadNotifications selectedFilter)) :
    n ∈ notifications ∨ n ∈ unreadNotifications := by
  have h1 : n ∈ NotificationsPanel.applyFilter notifications unreadNotifications
      selectedFilter := by
    unfold NotificationsPanel.applySearch at h
    split_ifs at h
    · exact (List.mem_filter.1 h).1
    · exact h
  unfold NotificationsPanel.applyFilter at h1
  split_ifs at h1
  · exact Or.inr h1
  · exact Or.inl (List.mem_filter.1 h1).1
  · exact Or.inl (List.mem_filter.1 h1).1
  · exact Or.inl h1

/-- Priorities `[low, urgent, x, high]`, with `x` any label outside the table and not an
inherited member name, come out of the `priority` sort as `[high, low, urgent, x]`. -/
theorem priority_example (x : String) (h1 : x ≠ "high") (h2 : x ≠ "medium") (h3 : x ≠ "low")
    (h4 : x ∉ NotificationsPanel.inheritedKeys) :
    (NotificationsPanel.filterEffect
        [notificationWithPriority 1 "low", notificationWithPriority 2 "urgent",
         notificationWithPriority 3 x, notificationWithPriority 4 "high"]
        [] "all" "" "priority").filteredNotifications
      = [notificationWithPriority 4 "high", notificationWithPriority 1 "low",
         notificationWithPriority 2 "urgent", notificationWithPriority 3 x] := by
  have hx : NotificationsPanel.priorityValue x = some 0 := by
    simp [NotificationsPanel.priorityValue, h1, h2, h3, h4]
  have hh : NotificationsPanel.priorityValue "high" = some 3 := by decide
  have hl : NotificationsPanel.priorityValue "low" = some 1 := by decide
  have hu : NotificationsPanel.priorityValue "urgent" = some 0 := by decide
  have ht : trimIsTruthy "" = false := by decide
  have hf : NotificationsPanel.applyFilter
      [notificationWithPriority 1 "low", notificationWithPriority 2 "urgent",
         notificationWithPriority 3 x, notificationWithPriority 4 "high"] [] "all"
      = [notificationWithPriority 1 "low", notificationWithPriority 2 "urgent",
         notificationWithPriority 3 x, notificationWithPriority 4 "high"] := by
    simp [NotificationsPanel.applyFilter]
  simp only [NotificationsPanel.filterEffect, NotificationsPanel.applySearch, ht, hf]
  simp [arraySort, List.insertionSort, List.orderedInsert, sortCompare,
    NotificationsPanel.comparator, notificationWithPriority, hx, hh, hl, hu, numSub]

/-- Claim C6 fails as stated. Priorities `[low, urgent, critical, high]` come out of the
`priority` sort as `[high, low, urgent, critical]`: `urgent` is not in the table, has rank
0 and stays behind `low`; it does not come first. -/
theorem priority_sort_urgent_not_first :
    ((NotificationsPanel.filterEffect
        [notificationWithPriority 1 "low", notificationWithPriority 2 "urgent",
         notificationWithPriority 3 "critical", notificationWithPriority 4 "high"]
        [] "all" "" "priority").filteredNotifications.map (fun n => n.priority))
      = ["high", "low", "urgent", "critical"] ∧
    ((NotificationsPanel.filterEffect
        [notificationWithPriority 1 "low", notificationWithPriority 2 "urgent",
         notificationWithPriority 3 "critical", notificationWithPriority 4 "high"]
        [] "all" "" "priority").filteredNotifications.map (fun n => n.priority))
      ≠ ["urgent", "high", "low", "critical"] := by
  refine ⟨by decide, by decide⟩

/-- Claim C6, amended. With rank 3 for `high`, 2 for `medium`, 1 for `low` and 0 for
every other label (`urgent` and `normal` included), and for lists whose priorities are
not member names inherited from `Object.prototype`: whatever the filter and the search
term, the `priority` sort returns a rearrangement of the array it was given in which no
item of lower rank stands before an item of higher rank; and priorities
`[low, urgent, x, high]` come out as `[high, low, urgent, x]` for every such label `x`
outside the table. -/
theorem priority_sort_descending (notifications unreadNotifications : List Notification)
    (selectedFilter searchTerm : String)
    (h1 : ∀ n ∈ notifications, n.priority ∉ NotificationsPanel.inheritedKeys)
    (h2 : ∀ n ∈ unreadNotifications, n.priority ∉ NotificationsPanel.inheritedKeys) :
    ((NotificationsPanel.filterEffect notifications unreadNotifications selectedFilter
        searchTerm "priority").filteredNotifications).Pairwise
      (fun a b => priorityRank b.priority ≤ priorityRank a.priority) ∧
    ((NotificationsPanel.filterEffect notifications unreadNotifications selectedFilter
        searchTerm "priority").filteredNotifications).Perm
      (NotificationsPanel.applySearch searchTerm
        (NotificationsPanel.applyFilter notifications unreadNotifications selectedFilter)) ∧
    (∀ x : String, x ≠ "high" → x ≠ "medium" → x ≠ "low" →
      x ∉ NotificationsPanel.inheritedKeys →
      (NotificationsPanel.filterEffect
          [notificationWithPriority 1 "low", notificationWithPriority 2 "urgent",
           notificationWithPriority 3 x, notificationWithPriority 4 "high"]
          [] "all" "" "priority").filteredNotifications
        = [notificationWithPriority 4 "high", notificationWithPriority 1 "low",
           notificationWithPriority 2 "urgent", notificationWithPriority 3 x]) := by
  refine ⟨?_, List.perm_insertionSort _ _, priority_example⟩
  simp only [NotificationsPanel.filterEffect, arraySort]
  have hk : ∀ n ∈ NotificationsPanel.applySearch searchTerm
      (NotificationsPanel.applyFilter notifications unreadNotifications selectedFilter),
      n.priority ∉ NotificationsPanel.inheritedKeys := by
    intro n hn
    rcases mem_applySearch_applyFilter _ _ _ _ n hn with h | h
    · exact h1 n h
    · exact h2 n h
  rw [insertionSort_congr _
    (fun a b : Notification => priorityRank b.priority ≤ priorityRank a.priority)]
  · haveI : IsTotal Notification
        (fun a b => priorityRank b.priority ≤ priorityRank a.priority) :=
      ⟨fun a b => le_total _ _⟩
    haveI : IsTrans Notification
        (fun a b => priorityRank b.priority ≤ priorityRank a.priority) :=
      ⟨fun a b c hab hbc => le_trans hbc hab⟩
    exact List.sorted_insertionSort _ _
  · intro a ha b hb
    simp only [sortCompare, NotificationsPanel.comparator]
    rw [priorityValue_of_not_inherited _ (hk a ha), priorityValue_of_not_inherited _ (hk b hb)]
    simp [numSub]

/-- The amended claim C6 at the list with priorities `[low, urgent, critical, high]`. -/
theorem priority_sort_descending_witness :
    (∀ n ∈ [notificationWithPriority 1 "low", notificationWithPriority 2 "urgent",
        notificationWithPriority 3 "critical", notificationWithPriority 4 "high"],
      n.priority ∉ NotificationsPanel.inheritedKeys) ∧
    ((NotificationsPanel.filterEffect
        [notificationWithPriority 1 "low", notificationWithPriority 2 "urgent",
         notificationWithPriority 3 "critical", notificationWithPriority 4 "high"]
        [] "all" "" "priority").filteredNotifications).Pairwise
      (fun a b => priorityRank b.priority ≤ priorityRank a.priority) :=
  ⟨by decide,
    (priority_sort_descending
      [notificationWithPriority 1 "low", notificationWithPriority 2 "urgent",
       notificationWithPriority 3 "critical", notificationWithPriority 4 "high"]
      [] "all" "" (by decide) (by decide)).1⟩

/-! ## In-place sorting -/

/-- Claim C7, evaluated on the code at a failing input. With `filter = all` and
`dateRange = all` the array sorted by `getFilteredAppointments` is the `appointments`
array itself: `[t = 2000, t = 1000]` is left as `[t = 1000, t = 2000]`. In the same way
the notifications effect with the filter `unread` reorders the `unreadNotifications`
array, and `getRecentMessages` reorders the array that `getUserMessages` returned. -/
theorem sort_reorders_caller_arrays :
    (getFilteredAppointments 0 (some [appointmentAt 1 2000 30, appointmentAt 2 1000 30])
        "all" "all" 0).appointments
      = some [appointmentAt 2 1000 30, appointmentAt 1 2000 30] ∧
    (NotificationsPanel.filterEffect [notificationAt 1 1000, notificationAt 2 2000]
        [notificationAt 1 1000, notificationAt 2 2000] "unread" "" "newest").unreadNotifications
      = [notificationAt 2 2000, notificationAt 1 1000] ∧
    (ChatService.getRecentMessages (Except.ok (some [messageAt 1 1000, messageAt 2 2000])) none)
      = Except.ok
          ⟨[messageAt 2 2000, messageAt 1 1000], [messageAt 2 2000, messageAt 1 1000]⟩ := by
  refine ⟨by decide, by decide, by rfl⟩

/-! ## Week and month ranges -/

/-- In a zone at a fixed offset `setDate` moves the time value by whole days. -/
theorem setDate_eq (tz t dt : Int) :
    setDate tz t dt = t + (dt - getDate tz t) * msPerDay := by
  have hm := makeDay_of_fields (LocalTime tz t)
  have hr := monthFromTime_range (LocalTime tz t)
  have h1 : MonthFromTime (LocalTime tz t) / 12 = 0 := by omega
  have h2 : MonthFromTime (LocalTime tz t) % 12 = MonthFromTime (LocalTime tz t) := by omega
  have hd : MakeDay (YearFromTime (LocalTime tz t)) (MonthFromTime (LocalTime tz t)) dt
      = Day (LocalTime tz t) + (dt - DateFromTime (LocalTime tz t)) := by
    rw [← hm]
    unfold MakeDay
    simp only [h1, h2, add_zero]
    ring
  have hsplit : Day (LocalTime tz t) * msPerDay + TimeWithinDay (LocalTime tz t)
      = LocalTime tz t := by
    unfold Day TimeWithinDay
    exact Int.ediv_add_emod' _ _
  have hlt : LocalTime tz t = t + tz * msPerMinute := rfl
  simp only [setDate, hd, MakeDate, UTC, getDate]
  linear_combination hsplit + hlt

/-- The week day of a time value moved back by its own week day is Sunday. -/
theorem getDay_startOfWeek (tz now : Int) :
    getDay tz (now - getDay tz now * msPerDay) = 0 := by
  have hk : 0 ≤ getDay tz now ∧ getDay tz now < 7 := by
    unfold getDay WeekDay
    omega
  have hday : Day (LocalTime tz (now - getDay tz now * msPerDay))
      = Day (LocalTime tz now) - getDay tz now := by
    unfold Day LocalTime msPerDay
    omega
  have hw : getDay tz now = (Day (LocalTime tz now) + 4) % 7 := rfl
  unfold getDay WeekDay at *
  rw [hday]
  omega

/-- What the `week` range of `getFilteredAppointments` tests: the appointment's instant
lies between `now` moved back to Sunday and `now` moved on to Saturday, both at the time
of day of `now`. -/
theorem inDateRange_week (tz now : Int) (apt : Appointment) :
    inDateRange tz "week" now apt =
      (dateGe apt.appointmentDate (some (now - getDay tz now * msPerDay)) &&
       dateLe apt.appointmentDate (some (now - getDay tz now * msPerDay + 6 * msPerDay))) := by
  have h1 : setDate tz now (getDate tz now - getDay tz now) = now - getDay tz now * msPerDay := by
    rw [setDate_eq]; ring
  have h2 : setDate tz (now - getDay tz now * msPerDay)
      (getDate tz (now - getDay tz now * msPerDay) - getDay tz (now - getDay tz now * msPerDay) + 6)
      = now - getDay tz now * msPerDay + 6 * msPerDay := by
    rw [setDate_eq, getDay_startOfWeek]; ring
  have hs1 : ("week" = "today") = False := by decide
  simp only [inDateRange, h1, h2, hs1, if_false, if_true]

/-- Claim C8, evaluated on the code at a failing input, in UTC. With `now` on Wednesday
17 January 2024 at 12:00, an appointment on Sunday 14 January at 09:00 and one on
Saturday 20 January at 15:00 lie in the week of `now`, yet the `week` range keeps
neither: its bounds are Sunday 12:00 and Saturday 12:00. -/
theorem week_range_drops_sunday_morning :
    getDay 0 1705492800000 = 3 ∧
    getDay 0 1705222800000 = 0 ∧
    Day (LocalTime 0 1705222800000) = Day (LocalTime 0 1705492800000) - 3 ∧
    getDay 0 1705762800000 = 6 ∧
    Day (LocalTime 0 1705762800000) = Day (LocalTime 0 1705492800000) + 3 ∧
    (getFilteredAppointments 0
        (some [appointmentAt 1 1705222800000 30, appointmentAt 2 1705762800000 30])
        "all" "week" 1705492800000).returned = [] := by
  refine ⟨by decide, by decide, by decide, by decide, by decide, by decide⟩

/-- Claim C9, evaluated on the code at failing inputs, in UTC. With `now` on Monday 29
January 2024 at 12:00 the `month` range drops an appointment on 15 January and keeps one
on 10 February: the month is read after `now` was moved to Saturday 3 February. With
`now` on Wednesday 10 January at 12:00 it drops an appointment on 31 January at 10:00:
the upper bound is the start of the last day. -/
theorem month_range_uses_month_of_saturday :
    toDateString 0 (some 1706529600000) = DateString.text 1 0 29 2024 ∧
    toDateString 0 (some 1705312800000) = DateString.text 1 0 15 2024 ∧
    toDateString 0 (some 1707559200000) = DateString.text 6 1 10 2024 ∧
    (getFilteredAppointments 0
        (some [appointmentAt 1 1705312800000 30, appointmentAt 2 1707559200000 30])
        "all" "month" 1706529600000).returned = [appointmentAt 2 1707559200000 30] ∧
    toDateString 0 (some 1704888000000) = DateString.text 3 0 10 2024 ∧
    toDateString 0 (some 1706695200000) = DateString.text 3 0 31 2024 ∧
    (getFilteredAppointments 0 (some [appointmentAt 3 1706695200000 30])
        "all" "month" 1704888000000).returned = [] := by
  refine ⟨by decide, by decide, by decide, by decide, by decide, by decide, by decide⟩

/-! ## Today -/

/-- Claim C10. For every zone offset and `now`, `todayAppointments`, `todayNotifications`,
`todayMessages` and the chat filter `today` (with an empty search term) are the input
list filtered, in input order, by "valid timestamp whose local day number equals that of
`now`"; so an appointment on another local day is left out however close to `now` it is,
and one on the same local day is kept however far from `now` it is. -/
theorem today_selections_same_local_day (tz now : Int) (appointments : List Appointment)
    (notifications : List Notification) (messages : List ChatMessage) :
    useAppointments.todayAppointments tz appointments now =
        appointments.filter (fun a => sameLocalDaySpec tz now a.dateTime) ∧
    useNotifications.todayNotifications tz notifications now =
        notifications.filter (fun n => sameLocalDaySpec tz now n.timestamp) ∧
    useChat.todayMessages tz messages now =
        messages.filter (fun m => sameLocalDaySpec tz now m.timestamp) ∧
    ChatInterface.filterEffect tz messages "today" "" now =
        messages.filter (fun m => sameLocalDaySpec tz now m.timestamp) ∧
    (∀ a ∈ appointments, ∀ t, a.dateTime = some t →
        (t + tz * 60000) / 86400000 ≠ (now + tz * 60000) / 86400000 →
        a ∉ useAppointments.todayAppointments tz appointments now) ∧
    (∀ a ∈ appointments, ∀ t, a.dateTime = some t →
        (t + tz * 60000) / 86400000 = (now + tz * 60000) / 86400000 →
        a ∈ useAppointments.todayAppointments tz appointments now) := by
  have hA : useAppointments.todayAppointments tz appointments now =
      appointments.filter (fun a => sameLocalDaySpec tz now a.dateTime) := by
    simp only [useAppointments.todayAppointments, toDateString_beq_now]
  refine ⟨hA, ?_, ?_, ?_, ?_, ?_⟩
  · simp only [useNotifications.todayNotifications, toDateString_beq_now]
  · simp only [useChat.todayMessages, toDateString_beq_now]
  · have hs : trimIsTruthy "" = false := by decide
    simp [ChatInterface.filterEffect, toDateString_beq_now, hs]
  · intro a _ t ht hne
    rw [hA, List.mem_filter]
    simp [ht, sameLocalDaySpec, hne]
  · intro a ha t ht heq
    rw [hA, List.mem_filter]
    exact ⟨ha, by simp [ht, sameLocalDaySpec, heq]⟩

/-! ## Chronological sorting -/

/-- The array after `sort` is a rearrangement of the array before. -/
theorem arraySort_perm {α : Type} (comparefn : α → α → Option Int) (xs : List α) :
    (arraySort comparefn xs).Perm xs :=
  List.perm_insertionSort _ _

/-- The array after `sort` has the elements of the array before. -/
theorem mem_arraySort {α : Type} (comparefn : α → α → Option Int) (xs : List α) (a : α) :
    a ∈ arraySort comparefn xs ↔ a ∈ xs :=
  (arraySort_perm comparefn xs).mem_iff

/-- When the comparator agrees with an integer key on the elements of the array, `sort`
is the insertion sort by that key. -/
theorem arraySort_eq_of_key {α : Type} (comparefn : α → α → Option Int) (key : α → Int)
    (xs : List α)
    (h : ∀ a ∈ xs, ∀ b ∈ xs, (sortCompare comparefn a b ≤ 0 ↔ key a ≤ key b)) :
    arraySort comparefn xs = xs.insertionSort (fun a b => key a ≤ key b) :=
  insertionSort_congr _ _ xs h

/-- Insertion sort by an integer key: the result is a rearrangement, ascending in the
key, and for each key value the elements with that key keep their order. -/
theorem insertionSort_key_facts {α : Type} (key : α → Int) (xs : List α) :
    (xs.insertionSort (fun a b => key a ≤ key b)).Perm xs ∧
    (xs.insertionSort (fun a b => key a ≤ key b)).Pairwise (fun a b => key a ≤ key b) ∧
    (∀ k : Int, (xs.insertionSort (fun a b => key a ≤ key b)).filter (fun a => decide (key a = k))
      = xs.filter (fun a => decide (key a = k))) := by
  have hperm := List.perm_insertionSort (fun a b : α => key a ≤ key b) xs
  refine ⟨hperm, ?_, ?_⟩
  · haveI : IsTotal α (fun a b => key a ≤ key b) := ⟨fun a b => le_total _ _⟩
    haveI : IsTrans α (fun a b => key a ≤ key b) := ⟨fun a b c hab hbc => le_trans hab hbc⟩
    exact List.sorted_insertionSort _ _
  · intro k
    have hc : (xs.filter (fun a => decide (key a = k))).Pairwise (fun a b => key a ≤ key b) := by
      rw [List.pairwise_iff_forall_sublist]
      intro a b hab
      have ha := hab.subset (List.mem_cons_self a [b])
      have hb := hab.subset (List.mem_cons_of_mem a (List.mem_singleton_self b))
      simp only [List.mem_filter, decide_eq_true_eq] at ha hb
      omega
    have hsub : List.Sublist (xs.filter (fun a => decide (key a = k)))
        (xs.insertionSort (fun a b => key a ≤ key b)) :=
      List.sublist_insertionSort hc (List.filter_sublist xs)
    have hsub2 := hsub.filter (fun a => decide (key a = k))
    rw [List.filter_filter] at hsub2
    simp only [Bool.and_self] at hsub2
    have hlen := (hperm.filter (fun a => decide (key a = k))).length_eq
    exact (hsub2.eq_of_length hlen.symm).symm


/-- Sorting records with valid dates by `date(a) - date(b)`: a rearrangement in
non-decreasing date order in which records of equal date keep their order. -/
theorem sort_ascending_facts {α : Type} (date : α → Option Int) (l : List α)
    (hv : ∀ a ∈ l, ∃ t, date a = some t) :
    (arraySort (fun a b => numSub (date a) (date b)) l).Perm l ∧
    (arraySort (fun a b => numSub (date a) (date b)) l).Pairwise
      (fun a b => ∃ s t, date a = some s ∧ date b = some t ∧ s ≤ t) ∧
    (∀ t : Int,
      (arraySort (fun a b => numSub (date a) (date b)) l).filter
          (fun a => decide (date a = some t))
        = l.filter (fun a => decide (date a = some t))) := by
  have hkey : arraySort (fun a b => numSub (date a) (date b)) l
      = l.insertionSort (fun a b => (date a).getD 0 ≤ (date b).getD 0) := by
    refine arraySort_eq_of_key _ (fun a => (date a).getD 0) l ?_
    intro a ha b hb
    obtain ⟨s, hs⟩ := hv a ha
    obtain ⟨t, ht⟩ := hv b hb
    simp only [sortCompare, hs, ht, numSub, Option.getD_some]
    omega
  obtain ⟨hp, hs, hst⟩ := insertionSort_key_facts (fun a => (date a).getD 0) l
  rw [hkey]
  have hv' : ∀ a ∈ l.insertionSort (fun a b => (date a).getD 0 ≤ (date b).getD 0),
      ∃ t, date a = some t := fun a ha => hv a (hp.mem_iff.1 ha)
  refine ⟨hp, ?_, ?_⟩
  · refine hs.imp_of_mem ?_
    intro a b ha hb hab
    obtain ⟨s, hs⟩ := hv' a ha
    obtain ⟨t, ht⟩ := hv' b hb
    refine ⟨s, t, hs, ht, ?_⟩
    simpa [hs, ht] using hab
  · intro t
    have h1 : ∀ (m : List α), (∀ a ∈ m, ∃ t, date a = some t) →
        m.filter (fun a => decide (date a = some t))
          = m.filter (fun a => decide ((date a).getD 0 = t)) := by
      intro m hm
      apply List.filter_congr
      intro a ha
      obtain ⟨s, hs⟩ := hm a ha
      simp [hs]
    rw [h1 _ hv', h1 _ hv]
    exact hst t

/-- Sorting records with valid dates by `date(b) - date(a)`: a rearrangement in
non-increasing date order in which records of equal date keep their order. -/
theorem sort_descending_facts {α : Type} (date : α → Option Int) (l : List α)
    (hv : ∀ a ∈ l, ∃ t, date a = some t) :
    (arraySort (fun a b => numSub (date b) (date a)) l).Perm l ∧
    (arraySort (fun a b => numSub (date b) (date a)) l).Pairwise
      (fun a b => ∃ s t, date a = some s ∧ date b = some t ∧ t ≤ s) ∧
    (∀ t : Int,
      (arraySort (fun a b => numSub (date b) (date a)) l).filter
          (fun a => decide (date a = some t))
        = l.filter (fun a => decide (date a = some t))) := by
  have hkey : arraySort (fun a b => numSub (date b) (date a)) l
      = l.insertionSort (fun a b => - (date a).getD 0 ≤ - (date b).getD 0) := by
    refine arraySort_eq_of_key _ (fun a => - (date a).getD 0) l ?_
    intro a ha b hb
    obtain ⟨s, hs⟩ := hv a ha
    obtain ⟨t, ht⟩ := hv b hb
    simp only [sortCompare, hs, ht, numSub, Option.getD_some]
    omega
  obtain ⟨hp, hs, hst⟩ := insertionSort_key_facts (fun a => - (date a).getD 0) l
  rw [hkey]
  have hv' : ∀ a ∈ l.insertionSort (fun a b => - (date a).getD 0 ≤ - (date b).getD 0),
      ∃ t, date a = some t := fun a ha => hv a (hp.mem_iff.1 ha)
  refine ⟨hp, ?_, ?_⟩
  · refine hs.imp_of_mem ?_
    intro a b ha hb hab
    obtain ⟨s, hs⟩ := hv' a ha
    obtain ⟨t, ht⟩ := hv' b hb
    refine ⟨s, t, hs, ht, ?_⟩
    simp only [hs, ht, Option.getD_some] at hab
    omega
  · intro t
    have h1 : ∀ (m : List α), (∀ a ∈ m, ∃ t, date a = some t) →
        m.filter (fun a => decide (date a = some t))
          = m.filter (fun a => decide (- (date a).getD 0 = - t)) := by
      intro m hm
      apply List.filter_congr
      intro a ha
      obtain ⟨s, hs⟩ := hm a ha
      simp [hs]
    rw [h1 _ hv', h1 _ hv]
    exact hst (- t)

/-- The filter predicate of `getPastAppointments` is the specification's "past". -/
theorem past_pred_eq (now : Int) (a : Appointment) :
    dateLt a.dateTime (some now) = pastSpec now a := by
  unfold pastSpec
  cases h : a.dateTime <;> simp [dateLt]

/-- Every upcoming appointment has a valid timestamp. -/
theorem valid_of_upcomingSpec (now : Int) (xs : List Appointment) :
    ∀ a ∈ xs.filter (fun a => upcomingSpec now a), ∃ t, a.dateTime = some t := by
  intro a ha
  obtain ⟨t, ht, -⟩ := (upcomingSpec_iff now a).1 (List.mem_filter.1 ha).2
  exact ⟨t, ht⟩

/-- Every past appointment has a valid timestamp. -/
theorem valid_of_pastSpec (now : Int) (xs : List Appointment) :
    ∀ a ∈ xs.filter (fun a => pastSpec now a), ∃ t, a.dateTime = some t := by
  intro a ha
  have h := (List.mem_filter.1 ha).2
  unfold pastSpec at h
  cases hd : a.dateTime with
  | none => simp [hd] at h
  | some t => exact ⟨t, rfl⟩

/-- The result of `getUpcomingAppointments` on a fetched list. -/
theorem getUpcomingAppointments_eq (xs : List Appointment) (now : Int) :
    AppointmentsService.getUpcomingAppointments (Except.ok (some xs)) now
      = Except.ok (arraySort (fun a b : Appointment => numSub a.dateTime b.dateTime)
          (xs.filter (fun a => upcomingSpec now a))) := by
  simp only [AppointmentsService.getUpcomingAppointments,
    AppointmentsService.getUserAppointments, Option.getD_some, upcoming_pred_eq]

/-- The result of `getPastAppointments` on a fetched list. -/
theorem getPastAppointments_eq (xs : List Appointment) (now : Int) :
    AppointmentsService.getPastAppointments (Except.ok (some xs)) now
      = Except.ok (arraySort (fun a b : Appointment => numSub b.dateTime a.dateTime)
          (xs.filter (fun a => pastSpec now a))) := by
  simp only [AppointmentsService.getPastAppointments,
    AppointmentsService.getUserAppointments, Option.getD_some, past_pred_eq]

/-- Claim C15. For every appointment list and every `now`, `getUpcomingAppointments`
returns a rearrangement of the upcoming appointments in non-decreasing timestamp order and
`getPastAppointments` a rearrangement of the past appointments in non-increasing timestamp
order; in both, for every time value the appointments with that timestamp stand in the
order they have in the input. -/
theorem chronological_sort_ordered_stable (xs : List Appointment) (now : Int) :
    ∃ up past,
      AppointmentsService.getUpcomingAppointments (Except.ok (some xs)) now = Except.ok up ∧
      AppointmentsService.getPastAppointments (Except.ok (some xs)) now = Except.ok past ∧
      (up.Perm (xs.filter (fun a => upcomingSpec now a)) ∧
       up.Pairwise (fun a b => ∃ s t, a.dateTime = some s ∧ b.dateTime = some t ∧ s ≤ t) ∧
       ∀ t : Int, up.filter (fun a => decide (a.dateTime = some t))
         = (xs.filter (fun a => upcomingSpec now a)).filter
             (fun a => decide (a.dateTime = some t))) ∧
      (past.Perm (xs.filter (fun a => pastSpec now a)) ∧
       past.Pairwise (fun a b => ∃ s t, a.dateTime = some s ∧ b.dateTime = some t ∧ t ≤ s) ∧
       ∀ t : Int, past.filter (fun a => decide (a.dateTime = some t))
         = (xs.filter (fun a => pastSpec now a)).filter
             (fun a => decide (a.dateTime = some t))) :=
  ⟨_, _, getUpcomingAppointments_eq xs now, getPastAppointments_eq xs now,
    sort_ascending_facts (fun a : Appointment => a.dateTime) _ (valid_of_upcomingSpec now xs),
    sort_descending_facts (fun a : Appointment => a.dateTime) _ (valid_of_pastSpec now xs)⟩

/-- Claim C19. For every appointment list and a common `now`, no appointment is returned
both by `getUpcomingAppointments` and by `getPastAppointments`, and every appointment of
the list with a valid timestamp and a status other than `cancelled` is returned by
exactly one of the two. -/
theorem upcoming_past_partition (xs : List Appointment) (now : Int) :
    ∃ up past,
      AppointmentsService.getUpcomingAppointments (Except.ok (some xs)) now = Except.ok up ∧
      AppointmentsService.getPastAppointments (Except.ok (some xs)) now = Except.ok past ∧
      (∀ a, ¬ (a ∈ up ∧ a ∈ past)) ∧
      (∀ a ∈ xs, (∃ t, a.dateTime = some t) → a.status ≠ "cancelled" →
        (a ∈ up ∧ a ∉ past) ∨ (a ∉ up ∧ a ∈ past)) := by
  have hu : ∀ a, a ∈ arraySort (fun a b : Appointment => numSub a.dateTime b.dateTime)
      (xs.filter (fun a => upcomingSpec now a)) ↔
      a ∈ xs ∧ ∃ t, a.dateTime = some t ∧ now ≤ t ∧ a.status ≠ "cancelled" := by
    intro a
    rw [mem_arraySort, List.mem_filter, upcomingSpec_iff]
  have hp : ∀ a, a ∈ arraySort (fun a b : Appointment => numSub b.dateTime a.dateTime)
      (xs.filter (fun a => pastSpec now a)) ↔
      a ∈ xs ∧ ∃ t, a.dateTime = some t ∧ t < now := by
    intro a
    rw [mem_arraySort, List.mem_filter]
    unfold pastSpec
    cases hd : a.dateTime <;> simp
  refine ⟨_, _, getUpcomingAppointments_eq xs now, getPastAppointments_eq xs now, ?_, ?_⟩
  · rintro a ⟨h1, h2⟩
    obtain ⟨-, t, ht, hle, -⟩ := (hu a).1 h1
    obtain ⟨-, t', ht', hlt⟩ := (hp a).1 h2
    rw [ht] at ht'
    cases ht'
    omega
  · rintro a ha ⟨t, ht⟩ hc
    by_cases hle : now ≤ t
    · left
      refine ⟨(hu a).2 ⟨ha, t, ht, hle, hc⟩, ?_⟩
      intro h2
      obtain ⟨-, t', ht', hlt⟩ := (hp a).1 h2
      rw [ht] at ht'
      cases ht'
      omega
    · right
      refine ⟨?_, (hp a).2 ⟨ha, t, ht, by omega⟩⟩
      intro h1
      obtain ⟨-, t', ht', hle', -⟩ := (hu a).1 h1
      rw [ht] at ht'
      cases ht'
      omega


/-! ## The order of the filtered appointments -/

/-- The array that `getFilteredAppointments` sorts: the appointments that pass the status
filter and the date range, in input order. -/
theorem getFilteredAppointments_returned (tz : Int) (apps : List Appointment)
    (filter dateRange : String) (now : Int) :
    (getFilteredAppointments tz (some apps) filter dateRange now).returned
      = arraySort (fun a b => numSub a.appointmentDate b.appointmentDate)
          (apps.filter (fun apt =>
            (decide (filter = "all") || apt.status == filter) &&
            (decide (dateRange = "all") || inDateRange tz dateRange now apt))) := by
  simp only [getFilteredAppointments]
  congr 1
  by_cases hf : filter = "all" <;> by_cases hd : dateRange = "all" <;>
    simp [hf, hd, List.filter_filter, Bool.and_comm]

/-- Claim C18 fails as stated. With no status filter and no date range, the input
`[t = 2000, t = 1000]` is returned as `[t = 1000, t = 2000]`, which is not a sub-list of
the input: the result is sorted by date. -/
theorem getFilteredAppointments_not_input_order :
    (getFilteredAppointments 0 (some [appointmentAt 1 2000 30, appointmentAt 2 1000 30])
        "all" "all" 0).returned
      = [appointmentAt 2 1000 30, appointmentAt 1 2000 30] ∧
    ¬ List.Sublist
        (getFilteredAppointments 0 (some [appointmentAt 1 2000 30, appointmentAt 2 1000 30])
          "all" "all" 0).returned
        [appointmentAt 1 2000 30, appointmentAt 2 1000 30] := by
  refine ⟨by decide, by decide⟩

/-- Claim C18, amended. For every appointment list, status filter and date range,
`getFilteredAppointments` returns a rearrangement of a sub-list of the input; when the
kept appointments have valid dates the result is in non-decreasing order of
`appointmentDate`, and for every date value the appointments with that date stand in the
order they have in the input. -/
theorem getFilteredAppointments_sorted_sublist (tz : Int) (apps : List Appointment)
    (filter dateRange : String) (now : Int) :
    ∃ kept : List Appointment, List.Sublist kept apps ∧
      ((getFilteredAppointments tz (some apps) filter dateRange now).returned).Perm kept ∧
      ((∀ a ∈ kept, ∃ t, a.appointmentDate = some t) →
        ((getFilteredAppointments tz (some apps) filter dateRange now).returned).Pairwise
          (fun a b => ∃ s t, a.appointmentDate = some s ∧ b.appointmentDate = some t ∧ s ≤ t) ∧
        ∀ t : Int,
          ((getFilteredAppointments tz (some apps) filter dateRange now).returned).filter
              (fun a => decide (a.appointmentDate = some t))
            = kept.filter (fun a => decide (a.appointmentDate = some t))) := by
  rw [getFilteredAppointments_returned]
  refine ⟨_, List.filter_sublist apps, arraySort_perm _ _, ?_⟩
  intro hv
  exact (sort_ascending_facts (fun a : Appointment => a.appointmentDate) _ hv).2


/-! ## Records with an unparsable timestamp -/

/-- A filter that rejects `b` gives the same list with `b` inserted anywhere. -/
theorem filter_insert_rejected {α : Type} (p : α → Bool) (b : α) (l1 l2 : List α)
    (hb : p b = false) : (l1 ++ b :: l2).filter p = (l1 ++ l2).filter p := by
  simp [List.filter_append, List.filter_cons, hb]

/-- Claim C16 fails as stated. Asked for a date that does not parse,
`getAppointmentsForDate` returns the appointment whose `dateTime` does not parse: both
print `Invalid Date`. On the list without that appointment it returns the empty list. -/
theorem getAppointmentsForDate_invalid_date_keeps_invalid_record :
    AppointmentsService.getAppointmentsForDate 0
        (Except.ok (some [(⟨7, none, none, some 30, "scheduled"⟩ : Appointment)])) none
      = Except.ok [(⟨7, none, none, some 30, "scheduled"⟩ : Appointment)] ∧
    AppointmentsService.getAppointmentsForDate 0 (Except.ok (some [])) none = Except.ok [] := by
  refine ⟨by rfl, by rfl⟩

/-- Claim C16, amended. For every appointment list, split anywhere as `l1 ++ l2`, and
every appointment `b` whose `dateTime` does not parse, `getUpcomingAppointments`,
`getPastAppointments`, `getAppointmentsInRange` (whatever the bounds), `checkConflicts`
(whatever the candidate) and `getAppointmentsForDate` asked for a date that parses throw
nothing on the list with `b` inserted and return what they return on the list without
`b`. -/
theorem invalid_record_skipped (tz now : Int) (l1 l2 : List Appointment) (b : Appointment)
    (startDate endDate dateTime duration : Option Int) (date : Int)
    (hb : b.dateTime = none) :
    (∃ ys, AppointmentsService.getUpcomingAppointments (Except.ok (some (l1 ++ b :: l2))) now
          = Except.ok ys ∧
        AppointmentsService.getUpcomingAppointments (Except.ok (some (l1 ++ l2))) now
          = Except.ok ys) ∧
    (∃ ys, AppointmentsService.getPastAppointments (Except.ok (some (l1 ++ b :: l2))) now
          = Except.ok ys ∧
        AppointmentsService.getPastAppointments (Except.ok (some (l1 ++ l2))) now
          = Except.ok ys) ∧
    (∃ ys, AppointmentsService.getAppointmentsForDate tz (Except.ok (some (l1 ++ b :: l2)))
            (some date) = Except.ok ys ∧
        AppointmentsService.getAppointmentsForDate tz (Except.ok (some (l1 ++ l2))) (some date)
          = Except.ok ys) ∧
    (∃ ys, AppointmentsService.getAppointmentsInRange (Except.ok (some (l1 ++ b :: l2)))
            startDate endDate = Except.ok ys ∧
        AppointmentsService.getAppointmentsInRange (Except.ok (some (l1 ++ l2)))
            startDate endDate = Except.ok ys) ∧
    (∃ c, AppointmentsService.checkConflicts tz (Except.ok (some (l1 ++ b :: l2)))
            dateTime duration = Except.ok c ∧
        AppointmentsService.checkConflicts tz (Except.ok (some (l1 ++ l2))) dateTime duration
          = Except.ok c) := by
  refine ⟨⟨_, ?_, getUpcomingAppointments_eq _ now⟩, ⟨_, ?_, getPastAppointments_eq _ now⟩,
    ⟨_, ?_, rfl⟩, ⟨_, ?_, rfl⟩, ?_⟩
  · rw [getUpcomingAppointments_eq, filter_insert_rejected]
    simp [upcomingSpec, hb]
  · rw [getPastAppointments_eq, filter_insert_rejected]
    simp [pastSpec, hb]
  · simp only [AppointmentsService.getAppointmentsForDate,
      AppointmentsService.getUserAppointments, Option.getD_some]
    rw [filter_insert_rejected]
    simp [hb, toDateString]
  · simp only [AppointmentsService.getAppointmentsInRange,
      AppointmentsService.getUserAppointments, Option.getD_some]
    rw [filter_insert_rejected]
    simp [hb, dateGe]
  · cases dateTime with
    | none => exact ⟨false, rfl, rfl⟩
    | some s =>
      refine ⟨_, ?_, checkConflicts_eq_any tz _ s duration⟩
      rw [checkConflicts_eq_any, filter_insert_rejected]
      simp [hb, sameLocalDaySpec]


/-- The amended claim C16 at a concrete input: an appointment without a parsable
`dateTime` between two appointments of 15 January 2024, in UTC. -/
theorem invalid_record_skipped_witness :
    (⟨7, none, none, some 30, "scheduled"⟩ : Appointment).dateTime = none ∧
    AppointmentsService.getUpcomingAppointments
        (Except.ok (some ([appointmentAt 1 1705312800000 60] ++
          (⟨7, none, none, some 30, "scheduled"⟩ : Appointment) ::
          [appointmentAt 2 1705320000000 30]))) 1705276800000
      = Except.ok [appointmentAt 1 1705312800000 60, appointmentAt 2 1705320000000 30] ∧
    AppointmentsService.checkConflicts 0
        (Except.ok (some ([appointmentAt 1 1705312800000 60] ++
          (⟨7, none, none, some 30, "scheduled"⟩ : Appointment) ::
          [appointmentAt 2 1705320000000 30]))) (some 1705314600000) (some 30)
      = Except.ok true :=
  ⟨rfl,
    (by
      obtain ⟨ys, h1, h2⟩ := (invalid_record_skipped 0 1705276800000
        [appointmentAt 1 1705312800000 60] [appointmentAt 2 1705320000000 30]
        ⟨7, none, none, some 30, "scheduled"⟩ none none (some 1705314600000) (some 30)
        1705276800000 rfl).1
      rw [h1, ← h2]
      rfl),
    (by
      obtain ⟨c, h1, h2⟩ := (invalid_record_skipped 0 1705276800000
        [appointmentAt 1 1705312800000 60] [appointmentAt 2 1705320000000 30]
        ⟨7, none, none, some 30, "scheduled"⟩ none none (some 1705314600000) (some 30)
        1705276800000 rfl).2.2.2.2
      rw [h1, ← h2]
      rfl)⟩

/-! ## Free-text search -/

/-- The helper `startsWithChars` tests that `t` is an initial segment of `s`. -/
theorem startsWithChars_iff (s t : List Char) :
    startsWithChars s t = true ↔ ∃ r, s = t ++ r := by
  induction t generalizing s with
  | nil => simp [startsWithChars]
  | cons d ds ih =>
    cases s with
    | nil => simp [startsWithChars]
    | cons c cs =>
      simp only [startsWithChars, Bool.and_eq_true, beq_iff_eq, ih, List.cons_append,
        List.cons.injEq]
      constructor
      · rintro ⟨rfl, r, rfl⟩
        exact ⟨r, rfl, rfl⟩
      · rintro ⟨r, rfl, rfl⟩
        exact ⟨rfl, r, rfl⟩

/-- The helper `includesChars` tests that `t` occurs in `s` as a contiguous run. -/
theorem includesChars_iff (s t : List Char) :
    includesChars s t = true ↔ ∃ p r, s = p ++ t ++ r := by
  induction s with
  | nil =>
    simp only [includesChars, List.isEmpty_iff]
    constructor
    · rintro rfl
      exact ⟨[], [], rfl⟩
    · rintro ⟨p, r, h⟩
      have h1 := congrArg List.length h
      simp only [List.length_nil, List.length_append] at h1
      exact List.length_eq_zero.1 (by omega)
  | cons c cs ih =>
    simp only [includesChars, Bool.or_eq_true, startsWithChars_iff, ih]
    constructor
    · rintro (⟨r, h⟩ | ⟨p, r, h⟩)
      · exact ⟨[], r, by simpa using h⟩
      · exact ⟨c :: p, r, by simp [h]⟩
    · rintro ⟨p, r, h⟩
      cases p with
      | nil => exact Or.inl ⟨r, by simpa using h⟩
      | cons c' p' =>
        simp only [List.cons_append, List.cons.injEq] at h
        exact Or.inr ⟨p', r, h.2⟩

/-- The method `includes` tests that the characters of `t` occur in `s` as a contiguous
run. -/
theorem includes_iff (s t : String) :
    includes s t = true ↔ ∃ p r, s.toList = p ++ t.toList ++ r :=
  includesChars_iff _ _

/-- The lower-cased text of `xs ++ ys` ends with the lower-cased `ys`, read after `xs`. -/
theorem lowerCodePoints_append (mapping : List Char → Char → List Char → List Char)
    (before xs ys : List Char) :
    ∃ zs, lowerCodePoints mapping before (xs ++ ys)
      = zs ++ lowerCodePoints mapping (before ++ xs) ys := by
  induction xs generalizing before with
  | nil => exact ⟨[], by simp⟩
  | cons c cs ih =>
    obtain ⟨zs, hzs⟩ := ih (before ++ [c])
    refine ⟨mapping before c (cs ++ ys) ++ zs, ?_⟩
    have e : lowerCodePoints mapping before (c :: (cs ++ ys))
        = mapping before c (cs ++ ys) ++ lowerCodePoints mapping (before ++ [c]) (cs ++ ys) :=
      rfl
    rw [List.cons_append, e, hzs]
    simp only [List.append_assoc, List.singleton_append]

/-- Under a mapping that is the ASCII one on ASCII code points, a run `m` of ASCII code
points is lower-cased letter by letter, whatever stands around it. -/
theorem lowerCodePoints_ascii (mapping : List Char → Char → List Char → List Char)
    (hascii : ∀ before c after, c.toNat < 128 → mapping before c after = [c.toLower])
    (before m ys : List Char) (hm : ∀ c ∈ m, c.toNat < 128) :
    lowerCodePoints mapping before (m ++ ys)
      = m.map Char.toLower ++ lowerCodePoints mapping (before ++ m) ys := by
  induction m generalizing before with
  | nil => simp
  | cons c cs ih =>
    have hc := hascii before c (cs ++ ys) (hm c (List.mem_cons_self c cs))
    have ih' := ih (before ++ [c]) (fun x hx => hm x (List.mem_cons_of_mem c hx))
    have e : lowerCodePoints mapping before (c :: (cs ++ ys))
        = mapping before c (cs ++ ys) ++ lowerCodePoints mapping (before ++ [c]) (cs ++ ys) :=
      rfl
    rw [List.cons_append, e, hc, ih']
    simp only [List.map_cons, List.append_assoc, List.singleton_append, List.cons_append,
      List.nil_append]

/-- The ASCII model `toLowerCase` is `toLowerCaseWith` over the ASCII mapping. -/
theorem toLowerCaseWith_ascii (s : String) :
    toLowerCaseWith asciiLowerMapping s = toLowerCase s := by
  unfold toLowerCaseWith toLowerCase
  congr 1
  generalize ([] : List Char) = b
  induction s.toList generalizing b with
  | nil => rfl
  | cons c cs ih => simp [lowerCodePoints, asciiLowerMapping, ih]

/-- Under a mapping that is the ASCII one on ASCII code points, the term `BLOOD` is found
in every text that contains `blood test`. -/
theorem includes_blood (mapping : List Char → Char → List Char → List Char)
    (hascii : ∀ before c after, c.toNat < 128 → mapping before c after = [c.toLower])
    (x : String) (p q : List Char) (hx : x.toList = p ++ "blood test".toList ++ q) :
    includes (toLowerCaseWith mapping x) (toLowerCaseWith mapping "BLOOD") = true := by
  rw [includes_iff]
  have hB : (toLowerCaseWith mapping "BLOOD").toList = "blood".toList := by
    have h := lowerCodePoints_ascii mapping hascii [] "BLOOD".toList [] (by decide)
    rw [List.append_nil] at h
    show lowerCodePoints mapping [] "BLOOD".toList = "blood".toList
    rw [h]
    show List.map Char.toLower "BLOOD".toList ++ [] = "blood".toList
    decide
  obtain ⟨zs, hzs⟩ := lowerCodePoints_append mapping [] p ("blood test".toList ++ q)
  have hm := lowerCodePoints_ascii mapping hascii ([] ++ p) "blood test".toList q (by decide)
  refine ⟨zs, " test".toList ++ lowerCodePoints mapping ([] ++ p ++ "blood test".toList) q, ?_⟩
  rw [hB]
  show lowerCodePoints mapping [] x.toList = _
  rw [hx, List.append_assoc, hzs, hm]
  have e : List.map Char.toLower "blood test".toList = "blood".toList ++ " test".toList := by
    decide
  rw [e]
  simp only [List.append_assoc]

/-- Claim C12. For every lower-casing function `lower` of the host and every search term
`t`, `searchNotifications` keeps, in input order, the notifications for which `includes`
holds of the lower-cased title or content and the lower-cased `t`, and `searchRecords` does
the same with title and description: an item is returned exactly when it is in the input
and the lower-cased `t` occurs as a contiguous run in its lower-cased title or in its
lower-cased content (description). Two terms with the same lower-cased form give the same
results. For every lower-case mapping that is the ASCII one on ASCII code points, `BLOOD`
finds every record and notification whose title contains `blood test`; so it finds the
record titled `Annual blood test`, and with a mapping that sends `É` to `é` the term `ÉCHO`
finds both `écho cardiaque` and `ÉCHO DOPPLER`. -/
theorem search_case_insensitive (lower : String → String)
    (mapping : List Char → Char → List Char → List Char)
    (notifications : List Notification) (records : List Record) (t t' : String) :
    NotificationService.searchNotifications lower (Except.ok (some notifications)) t
      = Except.ok (notifications.filter (fun n =>
          includes (lower n.title) (lower t) || includes (lower n.content) (lower t))) ∧
    RecordsService.searchRecords lower (Except.ok (some records)) t
      = Except.ok (records.filter (fun r =>
          includes (lower r.title) (lower t) || includes (lower r.description) (lower t))) ∧
    (∃ ns, NotificationService.searchNotifications lower (Except.ok (some notifications)) t
          = Except.ok ns ∧
        ∀ n, n ∈ ns ↔ n ∈ notifications ∧
          ((∃ p q, (lower n.title).toList = p ++ (lower t).toList ++ q) ∨
           (∃ p q, (lower n.content).toList = p ++ (lower t).toList ++ q))) ∧
    (∃ rs, RecordsService.searchRecords lower (Except.ok (some records)) t = Except.ok rs ∧
        ∀ r, r ∈ rs ↔ r ∈ records ∧
          ((∃ p q, (lower r.title).toList = p ++ (lower t).toList ++ q) ∨
           (∃ p q, (lower r.description).toList = p ++ (lower t).toList ++ q))) ∧
    (lower t = lower t' →
      NotificationService.searchNotifications lower (Except.ok (some notifications)) t
        = NotificationService.searchNotifications lower (Except.ok (some notifications)) t' ∧
      RecordsService.searchRecords lower (Except.ok (some records)) t
        = RecordsService.searchRecords lower (Except.ok (some records)) t') ∧
    ((∀ before c after, c.toNat < 128 → mapping before c after = [c.toLower]) →
      (∀ n ∈ notifications, ∀ p q, n.title.toList = p ++ "blood test".toList ++ q →
        ∃ ns, NotificationService.searchNotifications (toLowerCaseWith mapping)
            (Except.ok (some notifications)) "BLOOD" = Except.ok ns ∧ n ∈ ns) ∧
      (∀ r ∈ records, ∀ p q, r.title.toList = p ++ "blood test".toList ++ q →
        ∃ rs, RecordsService.searchRecords (toLowerCaseWith mapping)
            (Except.ok (some records)) "BLOOD" = Except.ok rs ∧ r ∈ rs)) ∧
    RecordsService.searchRecords (toLowerCaseWith asciiLowerMapping)
        (Except.ok (some [⟨1, "Annual blood test", "Routine panel", "Lab", some 0⟩,
          ⟨2, "Chest X-ray", "No findings", "Imaging", some 0⟩])) "BLOOD"
      = Except.ok [⟨1, "Annual blood test", "Routine panel", "Lab", some 0⟩] ∧
    RecordsService.searchRecords (toLowerCaseWith sampleLowerMapping)
        (Except.ok (some [⟨1, "écho cardiaque", "Routine", "Imaging", some 0⟩,
          ⟨2, "ÉCHO DOPPLER", "Routine", "Imaging", some 0⟩,
          ⟨3, "Chest X-ray", "No findings", "Imaging", some 0⟩])) "ÉCHO"
      = Except.ok [⟨1, "écho cardiaque", "Routine", "Imaging", some 0⟩,
          ⟨2, "ÉCHO DOPPLER", "Routine", "Imaging", some 0⟩] := by
  refine ⟨rfl, rfl, ⟨_, rfl, ?_⟩, ⟨_, rfl, ?_⟩, ?_, ?_, by rfl, by rfl⟩
  · intro n
    simp only [List.mem_filter, Bool.or_eq_true, includes_iff, Option.getD_some]
  · intro r
    simp only [List.mem_filter, Bool.or_eq_true, includes_iff, Option.getD_some]
  · intro h
    simp only [NotificationService.searchNotifications, RecordsService.searchRecords, h]
    exact ⟨trivial, trivial⟩
  · intro hascii
    constructor
    · intro n hn p q hp
      refine ⟨_, rfl, ?_⟩
      simp only [List.mem_filter, Bool.or_eq_true, Option.getD_some]
      exact ⟨hn, Or.inl (includes_blood mapping hascii n.title p q hp)⟩
    · intro r hr p q hp
      refine ⟨_, rfl, ?_⟩
      simp only [List.mem_filter, Bool.or_eq_true, Option.getD_some]
      exact ⟨hr, Or.inl (includes_blood mapping hascii r.title p q hp)⟩


/-! ## Idempotence -/

/-- The element that ordered insertion puts first is the new one or the old first. -/
theorem head_orderedInsert {α : Type} (r : α → α → Prop) [DecidableRel r] (a : α)
    (l : List α) :
    ∀ y ∈ (l.orderedInsert r a).head?, y = a ∨ y ∈ l.head? := by
  intro y hy
  cases l with
  | nil => left; simpa [List.orderedInsert] using hy.symm
  | cons b l =>
    by_cases h : r a b
    · left
      simpa [List.orderedInsert, h] using hy.symm
    · right
      simpa [List.orderedInsert, h] using hy

/-- Ordered insertion into a list whose neighbours are in order keeps neighbours in
order, when any two elements are comparable one way or the other. -/
theorem chain_orderedInsert {α : Type} (r : α → α → Prop) [DecidableRel r]
    (htot : ∀ a b, r a b ∨ r b a) (a : α) (l : List α) (hl : l.Chain' r) :
    (l.orderedInsert r a).Chain' r := by
  induction l with
  | nil => simp [List.orderedInsert]
  | cons b l ih =>
    by_cases h : r a b
    · simp only [List.orderedInsert, h, if_true]
      exact List.Chain'.cons h hl
    · simp only [List.orderedInsert, h, if_false]
      refine List.Chain'.cons' (ih hl.tail) ?_
      intro y hy
      rcases head_orderedInsert r a l y hy with rfl | hy'
      · exact (htot y b).resolve_left h
      · exact hl.rel_head? hy'

/-- Insertion sort puts neighbours in order when any two elements are comparable. -/
theorem chain_insertionSort {α : Type} (r : α → α → Prop) [DecidableRel r]
    (htot : ∀ a b, r a b ∨ r b a) (l : List α) : (l.insertionSort r).Chain' r := by
  induction l with
  | nil => simp
  | cons a l ih => exact chain_orderedInsert r htot a _ ih

/-- Insertion sort leaves a list alone whose neighbours are in order. -/
theorem insertionSort_of_chain {α : Type} (r : α → α → Prop) [DecidableRel r]
    (l : List α) (hl : l.Chain' r) : l.insertionSort r = l := by
  induction l with
  | nil => rfl
  | cons a l ih =>
    simp only [List.insertionSort, ih hl.tail]
    cases l with
    | nil => rfl
    | cons b l =>
      have hab : r a b := (List.chain'_cons.1 hl).1
      simp [List.orderedInsert, hab]

/-- Any two notifications are comparable under the panel's comparator. -/
theorem comparator_total (sortOrder : String) (a b : Notification) :
    sortCompare (NotificationsPanel.comparator sortOrder) a b ≤ 0 ∨
    sortCompare (NotificationsPanel.comparator sortOrder) b a ≤ 0 := by
  have hsub : ∀ x y : Option Int, (numSub x y).getD 0 ≤ 0 ∨ (numSub y x).getD 0 ≤ 0 := by
    intro x y
    cases x <;> cases y <;> simp [numSub]
    omega
  unfold sortCompare NotificationsPanel.comparator
  split_ifs
  · exact hsub _ _
  · exact hsub _ _
  · exact hsub _ _
  · simp

/-- Sorting twice with the panel's comparator is sorting once. -/
theorem arraySort_comparator_idem (sortOrder : String) (l : List Notification) :
    arraySort (NotificationsPanel.comparator sortOrder)
        (arraySort (NotificationsPanel.comparator sortOrder) l)
      = arraySort (NotificationsPanel.comparator sortOrder) l :=
  insertionSort_of_chain _ _ (chain_insertionSort _ (comparator_total sortOrder) l)

/-- The filter and search steps of the panel keep the notifications that pass one test,
which depends only on the filter and the search term. -/
theorem applySearch_applyFilter_eq_filter (selectedFilter searchTerm : String) :
    ∃ q : Notification → Bool, ∀ notifications : List Notification,
      NotificationsPanel.applySearch searchTerm
          (NotificationsPanel.applyFilter notifications
            (useNotifications.unreadNotifications notifications) selectedFilter)
        = notifications.filter q := by
  have h1 : ∃ q1 : Notification → Bool, ∀ notifications : List Notification,
      NotificationsPanel.applyFilter notifications
          (useNotifications.unreadNotifications notifications) selectedFilter
        = notifications.filter q1 := by
    unfold NotificationsPanel.applyFilter useNotifications.unreadNotifications
    split_ifs
    · exact ⟨_, fun _ => rfl⟩
    · exact ⟨_, fun _ => rfl⟩
    · exact ⟨_, fun _ => rfl⟩
    · exact ⟨fun _ => true, fun ns => by simp⟩
  have h2 : ∃ q2 : Notification → Bool, ∀ l : List Notification,
      NotificationsPanel.applySearch searchTerm l = l.filter q2 := by
    unfold NotificationsPanel.applySearch
    split_ifs
    · exact ⟨_, fun _ => rfl⟩
    · exact ⟨fun _ => true, fun ns => by simp⟩
  obtain ⟨q1, hq1⟩ := h1
  obtain ⟨q2, hq2⟩ := h2
  refine ⟨fun n => q1 n && q2 n, fun ns => ?_⟩
  rw [hq1, hq2, List.filter_filter]
  congr 1
  funext n
  exact Bool.and_comm _ _

/-- Claim C13. For every notification list and every filter, search term and sort
order, running the panel's filter, search and sort on its own output, with the unread
list derived from that output, returns the output unchanged; and `getAppointmentsByStatus`
applied to its own result with the same status returns that result. -/
theorem pipeline_idempotent (notifications : List Notification)
    (selectedFilter searchTerm sortOrder status : String) (xs : List Appointment) :
    (NotificationsPanel.filterEffect
        (NotificationsPanel.filterEffect notifications
          (useNotifications.unreadNotifications notifications)
          selectedFilter searchTerm sortOrder).filteredNotifications
        (useNotifications.unreadNotifications
          (NotificationsPanel.filterEffect notifications
            (useNotifications.unreadNotifications notifications)
            selectedFilter searchTerm sortOrder).filteredNotifications)
        selectedFilter searchTerm sortOrder).filteredNotifications
      = (NotificationsPanel.filterEffect notifications
          (useNotifications.unreadNotifications notifications)
          selectedFilter searchTerm sortOrder).filteredNotifications ∧
    (∃ ys, AppointmentsService.getAppointmentsByStatus (Except.ok (some xs)) status
          = Except.ok ys ∧
        AppointmentsService.getAppointmentsByStatus (Except.ok (some ys)) status
          = Except.ok ys) := by
  constructor
  · obtain ⟨q, hq⟩ := applySearch_applyFilter_eq_filter selectedFilter searchTerm
    simp only [NotificationsPanel.filterEffect, hq]
    have hself : (arraySort (NotificationsPanel.comparator sortOrder)
          (notifications.filter q)).filter q
        = arraySort (NotificationsPanel.comparator sortOrder) (notifications.filter q) := by
      rw [List.filter_eq_self]
      intro n hn
      rw [mem_arraySort] at hn
      exact (List.mem_filter.1 hn).2
    rw [hself, arraySort_comparator_idem]
  · refine ⟨_, rfl, ?_⟩
    simp only [AppointmentsService.getAppointmentsByStatus,
      AppointmentsService.getUserAppointments, Option.getD_some, List.filter_filter,
      Bool.and_self]

/-! ## Status filter, empty input, default durations, the 404 pattern -/

/-- Claim C11. For every appointment list and every status `X`, `getAppointmentsByStatus`
returns the input filtered, in input order, by "status equal to `X`"; its length is the
number of such appointments; an appointment whose status differs from `X` in any way (a
longer text, another letter case) is not in it. The page's status filter keeps the same
appointments. -/
theorem getAppointmentsByStatus_exact (tz now : Int) (xs : List Appointment)
    (status : String) :
    ∃ ys, AppointmentsService.getAppointmentsByStatus (Except.ok (some xs)) status
        = Except.ok ys ∧
      ys = xs.filter (fun a => decide (a.status = status)) ∧
      ys.length = xs.countP (fun a => decide (a.status = status)) ∧
      (∀ a, a ∈ ys ↔ a ∈ xs ∧ a.status = status) ∧
      (status ≠ "all" →
        ((getFilteredAppointments tz (some xs) status "all" now).returned).Perm ys) ∧
      AppointmentsService.getAppointmentsByStatus
          (Except.ok (some [appointmentAt 1 0 30, ⟨2, some 0, some 0, some 30, "scheduledX"⟩,
            ⟨3, some 0, some 0, some 30, "Scheduled"⟩, appointmentAt 4 0 30])) "scheduled"
        = Except.ok [appointmentAt 1 0 30, appointmentAt 4 0 30] := by
  have hf : xs.filter (fun a => a.status == status)
      = xs.filter (fun a => decide (a.status = status)) := by
    congr 1
  refine ⟨_, rfl, ?_, ?_, ?_, ?_, by rfl⟩
  · simp only [AppointmentsService.getUserAppointments, Option.getD_some]
    exact hf
  · simp only [AppointmentsService.getUserAppointments, Option.getD_some, hf,
      List.countP_eq_length_filter]
  · intro a
    simp [AppointmentsService.getUserAppointments, List.mem_filter]
  · intro hs
    rw [getFilteredAppointments_returned]
    simp only [AppointmentsService.getUserAppointments, Option.getD_some]
    refine (arraySort_perm _ _).trans ?_
    simp [hs]

/-- Claim C14. With `appointments` missing or empty, `getFilteredAppointments` and the
page's `getUpcomingAppointments` return the empty list; with a response whose data is
missing or the empty list, `getUpcomingAppointments`, `getPastAppointments`,
`getAppointmentsByStatus`, `getAppointmentsForDate` and `getAppointmentsInRange` return
the empty list and `checkConflicts` returns `false`; none throws. -/
theorem empty_input_empty_result (tz now : Int) (filter dateRange status : String)
    (date startDate endDate dateTime duration : Option Int) :
    ((getFilteredAppointments tz none filter dateRange now).returned = [] ∧
     (getFilteredAppointments tz (some []) filter dateRange now).returned = [] ∧
     EnhancedAppointmentsPage.getUpcomingAppointments none now = [] ∧
     EnhancedAppointmentsPage.getUpcomingAppointments (some []) now = []) ∧
    (AppointmentsService.getUpcomingAppointments (Except.ok none) now = Except.ok [] ∧
     AppointmentsService.getPastAppointments (Except.ok none) now = Except.ok [] ∧
     AppointmentsService.getAppointmentsByStatus (Except.ok none) status = Except.ok [] ∧
     AppointmentsService.getAppointmentsForDate tz (Except.ok none) date = Except.ok [] ∧
     AppointmentsService.getAppointmentsInRange (Except.ok none) startDate endDate
       = Except.ok [] ∧
     AppointmentsService.checkConflicts tz (Except.ok none) dateTime duration
       = Except.ok false) ∧
    (AppointmentsService.getUpcomingAppointments (Except.ok (some [])) now = Except.ok [] ∧
     AppointmentsService.getPastAppointments (Except.ok (some [])) now = Except.ok [] ∧
     AppointmentsService.getAppointmentsByStatus (Except.ok (some [])) status = Except.ok [] ∧
     AppointmentsService.getAppointmentsForDate tz (Except.ok (some [])) date = Except.ok [] ∧
     AppointmentsService.getAppointmentsInRange (Except.ok (some [])) startDate endDate
       = Except.ok [] ∧
     AppointmentsService.checkConflicts tz (Except.ok (some [])) dateTime duration
       = Except.ok false) := by
  have hc : ∀ data : Option (List Appointment), data.getD [] = [] →
      AppointmentsService.checkConflicts tz (Except.ok data) dateTime duration
        = Except.ok false := by
    intro data hd
    unfold AppointmentsService.checkConflicts AppointmentsService.checkConflictsTry
    cases dateTime with
    | none => simp [toISODate]
    | some t =>
      simp [toISODate, AppointmentsService.getAppointmentsForDate,
        AppointmentsService.getUserAppointments, hd]
  refine ⟨⟨?_, ?_, rfl, rfl⟩, ⟨rfl, rfl, rfl, rfl, rfl, hc none rfl⟩,
    ⟨rfl, rfl, rfl, rfl, rfl, hc (some []) rfl⟩⟩
  · rfl
  · simp [getFilteredAppointments, arraySort]

/-- The overlap test does not tell a missing duration from a duration of 60. -/
theorem overlaps_withDefaultDuration (s e : Option Int) (a : Appointment) :
    AppointmentsService.overlaps s e (withDefaultDuration a)
      = AppointmentsService.overlaps s e a := by
  unfold withDefaultDuration
  cases h : a.duration with
  | none => simp [AppointmentsService.overlaps, AppointmentsService.durationOrDefault, h]
  | some d => rfl

/-- Filling in the duration leaves the start alone. -/
theorem dateTime_withDefaultDuration (a : Appointment) :
    (withDefaultDuration a).dateTime = a.dateTime := by
  unfold withDefaultDuration
  cases h : a.duration <;> rfl

/-- Claim C17. For every candidate and appointment list, `checkConflicts` returns on the
list in which every appointment without a duration is given the duration 60 what it
returns on the list itself, and a candidate passed without a duration gets the answer of
the same candidate with duration 60. -/
theorem checkConflicts_default_durations (tz : Int) (xs : List Appointment)
    (dateTime duration : Option Int) :
    AppointmentsService.checkConflicts tz (Except.ok (some (xs.map withDefaultDuration)))
        dateTime duration
      = AppointmentsService.checkConflicts tz (Except.ok (some xs)) dateTime duration ∧
    AppointmentsService.checkConflicts tz (Except.ok (some xs)) dateTime none
      = AppointmentsService.checkConflicts tz (Except.ok (some xs)) dateTime (some 60) := by
  constructor
  · cases dateTime with
    | none => rfl
    | some s =>
      rw [checkConflicts_eq_any, checkConflicts_eq_any]
      congr 1
      induction xs with
      | nil => rfl
      | cons a l ih =>
        simp only [List.map_cons, List.filter_cons, dateTime_withDefaultDuration]
        split
        · simp only [List.any_cons, overlaps_withDefaultDuration, ih]
        · exact ih
  · rfl

/-- Claim C20. Each of `getUserAppointments`, `getUserNotifications`, `getUserMessages`
and `getAllLogs` returns the response data on success, the empty list when the data is
missing, the empty list when the request fails with status 404, and throws the error it
caught for every other failure. -/
theorem getUser_404_pattern (error : JsError) :
    ((∀ xs, AppointmentsService.getUserAppointments (Except.ok (some xs)) = Except.ok xs) ∧
     AppointmentsService.getUserAppointments (Except.ok none) = Except.ok [] ∧
     (error.responseStatus = some 404 →
       AppointmentsService.getUserAppointments (Except.error error) = Except.ok []) ∧
     (error.responseStatus ≠ some 404 →
       AppointmentsService.getUserAppointments (Except.error error) = Except.error error)) ∧
    ((∀ xs, NotificationService.getUserNotifications (Except.ok (some xs)) = Except.ok xs) ∧
     NotificationService.getUserNotifications (Except.ok none) = Except.ok [] ∧
     (error.responseStatus = some 404 →
       NotificationService.getUserNotifications (Except.error error) = Except.ok []) ∧
     (error.responseStatus ≠ some 404 →
       NotificationService.getUserNotifications (Except.error error) = Except.error error)) ∧
    ((∀ xs, ChatService.getUserMessages (Except.ok (some xs)) = Except.ok xs) ∧
     ChatService.getUserMessages (Except.ok none) = Except.ok [] ∧
     (error.responseStatus = some 404 →
       ChatService.getUserMessages (Except.error error) = Except.ok []) ∧
     (error.responseStatus ≠ some 404 →
       ChatService.getUserMessages (Except.error error) = Except.error error)) ∧
    ((∀ xs, LogService.getAllLogs (Except.ok (some xs)) = Except.ok xs) ∧
     LogService.getAllLogs (Except.ok none) = Except.ok [] ∧
     (error.responseStatus = some 404 →
       LogService.getAllLogs (Except.error error) = Except.ok []) ∧
     (error.responseStatus ≠ some 404 →
       LogService.getAllLogs (Except.error error) = Except.error error)) := by
  refine ⟨⟨fun _ => rfl, rfl, ?_, ?_⟩, ⟨fun _ => rfl, rfl, ?_, ?_⟩,
    ⟨fun _ => rfl, rfl, ?_, ?_⟩, ⟨fun _ => rfl, rfl, ?_, ?_⟩⟩ <;> intro h <;>
    simp [AppointmentsService.getUserAppointments, NotificationService.getUserNotifications,
      ChatService.getUserMessages, LogService.getAllLogs, h]

/-! ## Time until an appointment -/

/-- A text that ends in `s` is not `Past appointment`. -/
theorem ne_past_of_ends_in_s (x : String) (tail : List Char) :
    x ++ String.mk (tail ++ ['s']) ≠ "Past appointment" := by
  intro h
  have h1 := congrArg String.data h
  have h2 := congrArg (fun l => l.reverse.head?) h1
  simp [String.data_append] at h2

/-- Claim C30. For every appointment instant and `now`, with `d` their difference in
milliseconds, `getTimeUntilAppointment` returns `Past appointment` exactly when `d < 0`;
otherwise hours lie in 0..23, minutes in 0..59, `days * 1440 + hours * 60 + minutes` is
the floor of `d / 60000`, and the text shows days and hours when `days > 0`, hours and
minutes when `days = 0` and `hours > 0`, and minutes alone otherwise. -/
theorem getTimeUntilAppointment_spec (appointmentDate now : Int) :
    (getTimeUntilAppointment (some appointmentDate) now = "Past appointment"
      ↔ appointmentDate - now < 0) ∧
    (0 ≤ appointmentDate - now →
      (0 ≤ (appointmentDate - now) % 86400000 / 3600000 ∧
       (appointmentDate - now) % 86400000 / 3600000 < 24 ∧
       0 ≤ (appointmentDate - now) % 3600000 / 60000 ∧
       (appointmentDate - now) % 3600000 / 60000 < 60 ∧
       (appointmentDate - now) / 86400000 * 1440
         + (appointmentDate - now) % 86400000 / 3600000 * 60
         + (appointmentDate - now) % 3600000 / 60000 = (appointmentDate - now) / 60000) ∧
      (0 < (appointmentDate - now) / 86400000 →
        getTimeUntilAppointment (some appointmentDate) now
          = toString ((appointmentDate - now) / 86400000) ++ " days, "
            ++ toString ((appointmentDate - now) % 86400000 / 3600000) ++ " hours") ∧
      ((appointmentDate - now) / 86400000 = 0 →
        0 < (appointmentDate - now) % 86400000 / 3600000 →
        getTimeUntilAppointment (some appointmentDate) now
          = toString ((appointmentDate - now) % 86400000 / 3600000) ++ " hours, "
            ++ toString ((appointmentDate - now) % 3600000 / 60000) ++ " minutes") ∧
      ((appointmentDate - now) / 86400000 = 0 →
        (appointmentDate - now) % 86400000 / 3600000 = 0 →
        getTimeUntilAppointment (some appointmentDate) now
          = toString ((appointmentDate - now) % 3600000 / 60000) ++ " minutes")) := by
  generalize hd : appointmentDate - now = d
  have hdef : getTimeUntilAppointment (some appointmentDate) now =
      if d < 0 then "Past appointment"
      else if d / 86400000 > 0 then
        toString (d / 86400000) ++ " days, " ++ toString (d % 86400000 / 3600000) ++ " hours"
      else if d % 86400000 / 3600000 > 0 then
        toString (d % 86400000 / 3600000) ++ " hours, "
          ++ toString (d % 3600000 / 60000) ++ " minutes"
      else toString (d % 3600000 / 60000) ++ " minutes" := by
    simp only [getTimeUntilAppointment, hd]
    rfl
  rw [hdef]
  refine ⟨?_, ?_⟩
  · constructor
    · intro h
      by_contra hneg
      rw [if_neg hneg] at h
      split_ifs at h
      · exact ne_past_of_ends_in_s _ [' ', 'h', 'o', 'u', 'r'] h
      · exact ne_past_of_ends_in_s _ [' ', 'm', 'i', 'n', 'u', 't', 'e'] h
      · exact ne_past_of_ends_in_s _ [' ', 'm', 'i', 'n', 'u', 't', 'e'] h
    · intro h
      rw [if_pos h]
  · intro h0
    have hn : ¬ d < 0 := by omega
    rw [if_neg hn]
    refine ⟨by omega, ?_, ?_, ?_⟩
    · intro hdays
      rw [if_pos hdays]
    · intro hdays hhours
      rw [if_neg (by omega), if_pos hhours]
    · intro hdays hhours
      rw [if_neg (by omega), if_neg (by omega)]


/-! ## The overlap test and the status of appointments -/

/-- Within the range of time values the three clauses are the half-open test: for a
candidate and an existing appointment with positive durations whose two ends are time
values, the clauses give "candidate start before existing end and existing start before
candidate end". -/
theorem overlaps_eq_halfOpen_of_ends_in_range (a : Appointment) (S s d : Int)
    (hS : a.dateTime = some S)
    (hD : 0 < AppointmentsService.durationOrDefault a.duration) (hd : 0 < d)
    (hE : AppointmentsService.timeClip
        (S + AppointmentsService.durationOrDefault a.duration * 60000)
      = some (S + AppointmentsService.durationOrDefault a.duration * 60000))
    (he : AppointmentsService.timeClip (s + d * 60000) = some (s + d * 60000)) :
    AppointmentsService.overlaps (some s) (AppointmentsService.timeClip (s + d * 60000)) a
      = halfOpenOverlapSpec s (s + d * 60000) S
          (S + AppointmentsService.durationOrDefault a.duration * 60000) := by
  simp only [AppointmentsService.overlaps, hS, Option.some_bind, hE, he, dateGe, dateLt,
    dateGt, dateLe, halfOpenOverlapSpec]
  rw [Bool.eq_iff_iff]
  simp only [Bool.or_eq_true, Bool.and_eq_true, decide_eq_true_eq]
  omega

/-- Claim C22. There are a candidate and an existing appointment, both with valid starts
and positive durations, for which the three clauses of `checkConflicts` and the half-open
test on the instants disagree. Existing appointment A starts at the last time value,
8640000000000000 ms (13 September 275760, 00:00 UTC), and lasts 60 minutes; the candidate
starts at the same instant and lasts 30 minutes. Both ends lie beyond the last time value,
so `existingEnd` and `endTime` are `Invalid Date`, each clause compares with `NaN` and is
false, and `checkConflicts` answers `false` (in UTC the day filter keeps A); the half-open
test "candidate start < existing end and existing start < candidate end" on the instants
start + duration is true. -/
theorem three_clauses_differ_from_halfOpen :
    ((appointmentAt 1 8640000000000000 60).dateTime = some 8640000000000000 ∧
     AppointmentsService.timeClip 8640000000000000 = some 8640000000000000 ∧
     AppointmentsService.durationOrDefault (appointmentAt 1 8640000000000000 60).duration
       = 60 ∧
     AppointmentsService.timeClip (8640000000000000 + 60 * 60000) = none ∧
     AppointmentsService.timeClip (8640000000000000 + 30 * 60000) = none ∧
     AppointmentsService.overlaps (some 8640000000000000)
         (AppointmentsService.timeClip (8640000000000000 + 30 * 60000))
         (appointmentAt 1 8640000000000000 60)
       = false ∧
     halfOpenOverlapSpec 8640000000000000 (8640000000000000 + 30 * 60000)
         8640000000000000 (8640000000000000 + 60 * 60000)
       = true ∧
     toISODate (some 8640000000000000) = Except.ok ⟨275760, 9, 13⟩ ∧
     AppointmentsService.getAppointmentsForDate 0
         (Except.ok (some [appointmentAt 1 8640000000000000 60]))
         (parseIsoDate ⟨275760, 9, 13⟩)
       = Except.ok [appointmentAt 1 8640000000000000 60] ∧
     AppointmentsService.checkConflicts 0
         (Except.ok (some [appointmentAt 1 8640000000000000 60]))
         (some 8640000000000000) (some 30)
       = Except.ok false) ∧
    ∃ (a : Appointment) (S s d : Int),
      a.dateTime = some S ∧
      AppointmentsService.timeClip S = some S ∧ AppointmentsService.timeClip s = some s ∧
      0 < AppointmentsService.durationOrDefault a.duration ∧ 0 < d ∧
      AppointmentsService.overlaps (some s) (AppointmentsService.timeClip (s + d * 60000)) a
        ≠ halfOpenOverlapSpec s (s + d * 60000) S
            (S + AppointmentsService.durationOrDefault a.duration * 60000) :=
  ⟨⟨rfl, by decide, by decide, by decide, by decide, by decide, by decide, by rfl, by rfl,
      by rfl⟩,
    appointmentAt 1 8640000000000000 60, 8640000000000000, 8640000000000000, 30,
    rfl, by decide, by decide, by decide, by decide, by decide⟩

/-- The answer of `checkConflicts` is a function of the starts and durations of the
fetched appointments. -/
theorem checkConflicts_of_conflictFields (tz : Int) (xs ys : List Appointment)
    (dateTime duration : Option Int) (h : xs.map conflictFields = ys.map conflictFields) :
    AppointmentsService.checkConflicts tz (Except.ok (some xs)) dateTime duration
      = AppointmentsService.checkConflicts tz (Except.ok (some ys)) dateTime duration := by
  cases dateTime with
  | none => rfl
  | some s =>
    rw [checkConflicts_eq_any, checkConflicts_eq_any]
    congr 1
    have key : ∀ l : List Appointment,
        (l.filter (fun a => sameLocalDaySpec tz (Day s * msPerDay) a.dateTime)).any
            (AppointmentsService.overlaps (some s)
              (AppointmentsService.timeClip (s + duration.getD 60 * 60000)))
          = (l.map conflictFields).any (fun p =>
              sameLocalDaySpec tz (Day s * msPerDay) p.1 &&
              AppointmentsService.overlaps (some s)
                (AppointmentsService.timeClip (s + duration.getD 60 * 60000))
                ⟨0, p.1, none, p.2, ""⟩) := by
      intro l
      induction l with
      | nil => rfl
      | cons a l ih =>
        simp only [List.filter_cons, List.map_cons, List.any_cons, conflictFields]
        rw [← ih]
        cases hk : sameLocalDaySpec tz (Day s * msPerDay) a.dateTime
        · simp
        · simp [AppointmentsService.overlaps]
    rw [key xs, key ys, h]

/-- Claim C24. For every candidate and any two fetched lists that are equal once every
status is blanked, `checkConflicts` returns the same value. -/
theorem checkConflicts_ignores_status (tz : Int) (xs ys : List Appointment)
    (dateTime duration : Option Int)
    (h : xs.map (fun a => { a with status := "" }) = ys.map (fun a => { a with status := "" })) :
    AppointmentsService.checkConflicts tz (Except.ok (some xs)) dateTime duration
      = AppointmentsService.checkConflicts tz (Except.ok (some ys)) dateTime duration := by
  apply checkConflicts_of_conflictFields
  have h2 := congrArg (List.map conflictFields) h
  simpa [List.map_map, Function.comp_def, conflictFields] using h2

/-- Claim C24 at a concrete input, in UTC: A at 10:00 for 60 minutes, once `scheduled`
and once `cancelled`, and candidate B at 10:30 for 30 minutes; the answer is `true` both
times. -/
theorem checkConflicts_ignores_status_witness :
    [appointmentAt 1 1705312800000 60].map (fun a => { a with status := "" })
      = [(⟨1, some 1705312800000, some 1705312800000, some 60, "cancelled"⟩ : Appointment)].map
          (fun a => { a with status := "" }) ∧
    AppointmentsService.checkConflicts 0
        (Except.ok (some [appointmentAt 1 1705312800000 60])) (some 1705314600000) (some 30)
      = AppointmentsService.checkConflicts 0
          (Except.ok (some [(⟨1, some 1705312800000, some 1705312800000, some 60,
            "cancelled"⟩ : Appointment)])) (some 1705314600000) (some 30) ∧
    AppointmentsService.checkConflicts 0
        (Except.ok (some [(⟨1, some 1705312800000, some 1705312800000, some 60,
          "cancelled"⟩ : Appointment)])) (some 1705314600000) (some 30)
      = Except.ok true :=
  ⟨by decide,
    checkConflicts_ignores_status 0 [appointmentAt 1 1705312800000 60]
      [⟨1, some 1705312800000, some 1705312800000, some 60, "cancelled"⟩]
      (some 1705314600000) (some 30) (by decide),
    by rfl⟩


/-! ## Recent messages and the next appointment -/

/-- Claim C21. For every message list with valid timestamps and every limit `N ≥ 0`,
`getRecentMessages` returns `min N (number of messages)` messages, newest first, and
together with the messages left out they are the input; every returned message is at
least as recent as every message left out. -/
theorem getRecentMessages_newest_first (messages : List ChatMessage) (N : Int)
    (hv : ∀ m ∈ messages, ∃ t, m.timestamp = some t) (hN : 0 ≤ N) :
    ∃ out rest, ChatService.getRecentMessages (Except.ok (some messages)) (some N)
        = Except.ok out ∧
      out.returned.length = min N.toNat messages.length ∧
      out.returned.Pairwise
        (fun a b => ∃ s t, a.timestamp = some s ∧ b.timestamp = some t ∧ t ≤ s) ∧
      (out.returned ++ rest).Perm messages ∧
      (∀ a ∈ out.returned, ∀ b ∈ rest,
        ∃ s t, a.timestamp = some s ∧ b.timestamp = some t ∧ t ≤ s) := by
  obtain ⟨hp, hs, -⟩ := sort_descending_facts (fun m : ChatMessage => m.timestamp) messages hv
  refine ⟨_, (arraySort (fun a b : ChatMessage => numSub b.timestamp a.timestamp)
    messages).drop N.toNat, rfl, ?_, ?_, ?_, ?_⟩
  · simp only [ChatService.getUserMessages, Option.getD_some, sliceFromStart,
      if_neg (not_lt.2 hN), List.length_take, hp.length_eq]
  · simp only [ChatService.getUserMessages, Option.getD_some, sliceFromStart,
      if_neg (not_lt.2 hN)]
    exact hs.sublist (List.take_sublist _ _)
  · simp only [ChatService.getUserMessages, Option.getD_some, sliceFromStart,
      if_neg (not_lt.2 hN), List.take_append_drop]
    exact hp
  · simp only [ChatService.getUserMessages, Option.getD_some, sliceFromStart,
      if_neg (not_lt.2 hN)]
    intro a ha b hb
    have hs' := hs
    rw [← List.take_append_drop N.toNat
      (arraySort (fun a b : ChatMessage => numSub b.timestamp a.timestamp) messages),
      List.pairwise_append] at hs'
    exact hs'.2.2 a ha b hb

/-- Claim C21 at three messages and the limit 2. -/
theorem getRecentMessages_newest_first_witness :
    (∀ m ∈ [messageAt 1 1000, messageAt 2 3000, messageAt 3 2000],
      ∃ t, m.timestamp = some t) ∧ (0 : Int) ≤ 2 ∧
    ∃ out rest, ChatService.getRecentMessages
          (Except.ok (some [messageAt 1 1000, messageAt 2 3000, messageAt 3 2000])) (some 2)
        = Except.ok out ∧
      out.returned.length = min (2 : Int).toNat [messageAt 1 1000, messageAt 2 3000,
        messageAt 3 2000].length ∧
      out.returned.Pairwise
        (fun a b => ∃ s t, a.timestamp = some s ∧ b.timestamp = some t ∧ t ≤ s) ∧
      (out.returned ++ rest).Perm [messageAt 1 1000, messageAt 2 3000, messageAt 3 2000] ∧
      (∀ a ∈ out.returned, ∀ b ∈ rest,
        ∃ s t, a.timestamp = some s ∧ b.timestamp = some t ∧ t ≤ s) :=
  ⟨by simp [messageAt], by decide,
    getRecentMessages_newest_first [messageAt 1 1000, messageAt 2 3000, messageAt 3 2000] 2
      (by simp [messageAt]) (by decide)⟩

/-- Claim C26. For every appointment list and every `now`, `nextAppointment` is `null`
exactly when `upcomingCount` is 0; otherwise it is an appointment of the list whose status
is not `cancelled` and whose timestamp is valid and at or after `now`, and no such
appointment of the list has an earlier timestamp. -/
theorem nextAppointment_earliest_upcoming (xs : List Appointment) (now : Int) :
    (useAppointments.nextAppointment xs now = none ↔ useAppointments.upcomingCount xs now = 0) ∧
    (∀ a, useAppointments.nextAppointment xs now = some a →
      a ∈ xs ∧ a.status ≠ "cancelled" ∧
      ∃ t, a.dateTime = some t ∧ now ≤ t ∧
        ∀ b ∈ xs, b.status ≠ "cancelled" → ∀ u, b.dateTime = some u → now ≤ u → t ≤ u) := by
  have hfil : xs.filter (fun app => dateGe app.dateTime (some now) && app.status != "cancelled")
      = xs.filter (fun a => upcomingSpec now a) := by
    simp only [upcoming_pred_eq]
  obtain ⟨hp, hs, -⟩ := sort_ascending_facts (fun a : Appointment => a.dateTime) _
    (valid_of_upcomingSpec now xs)
  have hmem : ∀ a, a ∈ arraySort (fun a b : Appointment => numSub a.dateTime b.dateTime)
      (xs.filter (fun a => upcomingSpec now a)) ↔
      a ∈ xs ∧ ∃ t, a.dateTime = some t ∧ now ≤ t ∧ a.status ≠ "cancelled" := by
    intro a
    rw [mem_arraySort, List.mem_filter, upcomingSpec_iff]
  simp only [useAppointments.nextAppointment, useAppointments.upcomingCount, hfil]
  constructor
  · rw [List.head?_eq_none_iff, List.length_eq_zero]
    constructor
    · intro h
      have := hp.length_eq
      rw [h] at this
      exact List.length_eq_zero.1 this.symm
    · intro h
      rw [h]
      rfl
  · intro a ha
    cases hl : arraySort (fun a b : Appointment => numSub a.dateTime b.dateTime)
        (xs.filter (fun a => upcomingSpec now a)) with
    | nil => rw [hl] at ha; simp at ha
    | cons c l =>
      rw [hl] at ha hs
      simp only [List.head?_cons, Option.some.injEq] at ha
      subst ha
      obtain ⟨hcx, t, ht, hle, hst⟩ := (hmem c).1 (by rw [hl]; exact List.mem_cons_self _ _)
      refine ⟨hcx, hst, t, ht, hle, ?_⟩
      intro b hb hbs u hu hnu
      have hbm : b ∈ c :: l := by
        rw [← hl]
        exact (hmem b).2 ⟨hb, u, hu, hnu, hbs⟩
      rcases List.mem_cons.1 hbm with rfl | hbl
      · rw [ht] at hu
        cases hu
        exact le_refl _
      · obtain ⟨s', t', hs1, ht1, hle'⟩ := (List.pairwise_cons.1 hs).1 b hbl
        rw [ht] at hs1
        rw [hu] at ht1
        cases hs1
        cases ht1
        exact hle'


/-! ## System health -/

/-- Two filters that never both keep an element keep at most all elements together. -/
theorem length_filter_add_le {α : Type} (p q : α → Bool) (l : List α)
    (h : ∀ x, ¬ (p x = true ∧ q x = true)) :
    (l.filter p).length + (l.filter q).length ≤ l.length := by
  induction l with
  | nil => simp
  | cons a l ih =>
    have ha := h a
    simp only [List.filter_cons, List.length_cons]
    cases hp : p a <;> cases hq : q a <;> simp_all <;> omega

/-- Rounding to the nearest integer moves a number by at most one half. -/
theorem roundHalfEven_error (q : ℚ) : |(roundHalfEven q : ℚ) - q| ≤ 1 / 2 := by
  have h1 := Int.floor_le q
  have h2 := Int.lt_floor_add_one q
  unfold roundHalfEven
  rw [abs_le]
  by_cases c1 : q - (Int.floor q : ℚ) < 1 / 2
  · simp only [c1, if_true]
    constructor <;> linarith
  · simp only [c1, if_false]
    by_cases c2 : 1 / 2 < q - (Int.floor q : ℚ)
    · simp only [c2, if_true]
      push_cast
      constructor <;> linarith
    · simp only [c2, if_false]
      have h3 : q - (Int.floor q : ℚ) = 1 / 2 := le_antisymm (not_lt.1 c2) (not_lt.1 c1)
      by_cases c3 : Int.floor q % 2 = 0
      · simp only [c3, if_true]
        constructor <;> linarith
      · simp only [c3, if_false]
        push_cast
        constructor <;> linarith

/-- An integer less than one half away from `q` is the rounding of `q`. -/
theorem roundHalfEven_eq (q : ℚ) (m : Int) (h : |q - (m : ℚ)| < 1 / 2) :
    roundHalfEven q = m := by
  have h1 := Int.floor_le q
  have h2 := Int.lt_floor_add_one q
  rw [abs_lt] at h
  unfold roundHalfEven
  by_cases c1 : q - (Int.floor q : ℚ) < 1 / 2
  · simp only [c1, if_true]
    have a1 : ((Int.floor q : Int) : ℚ) < (m : ℚ) + 1 := by linarith
    have a2 : (m : ℚ) < (Int.floor q : ℚ) + 1 := by linarith
    have a1' : Int.floor q < m + 1 := by exact_mod_cast a1
    have a2' : m < Int.floor q + 1 := by exact_mod_cast a2
    omega
  · simp only [c1, if_false]
    by_cases c2 : 1 / 2 < q - (Int.floor q : ℚ)
    · simp only [c2, if_true]
      have a1 : ((Int.floor q : Int) : ℚ) < (m : ℚ) := by linarith
      have a2 : (m : ℚ) < (Int.floor q : ℚ) + 2 := by linarith
      have a1' : Int.floor q < m := by exact_mod_cast a1
      have a2' : m < Int.floor q + 2 := by exact_mod_cast a2
      omega
    · exfalso
      have h3 : q - (Int.floor q : ℚ) = 1 / 2 := le_antisymm (not_lt.1 c2) (not_lt.1 c1)
      have a1 : ((Int.floor q : Int) : ℚ) < (m : ℚ) := by linarith
      have a2 : (m : ℚ) < (Int.floor q : ℚ) + 1 := by linarith
      have a1' : Int.floor q < m := by exact_mod_cast a1
      have a2' : m < Int.floor q + 1 := by exact_mod_cast a2
      omega

/-- A number half way above the even integer `m` rounds to `m`. -/
theorem roundHalfEven_tie (q : ℚ) (m : Int) (h : q - (m : ℚ) = 1 / 2) (hm : m % 2 = 0) :
    roundHalfEven q = m := by
  have hf : Int.floor q = m := by
    rw [Int.floor_eq_iff]
    constructor <;> linarith
  unfold roundHalfEven
  simp only [hf, h, lt_self_iff_false, if_false, hm, if_true]

/-- The relative error of rounding to a double is at most `2 ^ (-53)`. -/
theorem roundToDouble_error (x : ℚ) : |roundToDouble x - x| ≤ |x| / 2 ^ 53 := by
  unfold roundToDouble
  by_cases hx : x = 0
  · simp [hx]
  · simp only [hx, if_false]
    have hpos : 0 < |x| := abs_pos.2 hx
    have hlog : (2 : ℚ) ^ (Int.log 2 |x|) ≤ |x| := by
      have := Int.zpow_log_le_self (b := 2) (by norm_num) hpos
      exact_mod_cast this
    set e := Int.log 2 |x| with he
    have hu : (0 : ℚ) < 2 ^ (e - 52) := by positivity
    have hr := roundHalfEven_error (x / 2 ^ (e - 52))
    have key : (roundHalfEven (x / 2 ^ (e - 52)) : ℚ) * 2 ^ (e - 52) - x
        = ((roundHalfEven (x / 2 ^ (e - 52)) : ℚ) - x / 2 ^ (e - 52)) * 2 ^ (e - 52) := by
      field_simp
    rw [key, abs_mul, abs_of_pos hu]
    have h53 : (2 : ℚ) ^ (e - 52) = 2 ^ e / 2 ^ 52 := by
      rw [zpow_sub₀ (by norm_num)]
      norm_num
    calc |(roundHalfEven (x / 2 ^ (e - 52)) : ℚ) - x / 2 ^ (e - 52)| * 2 ^ (e - 52)
        ≤ 1 / 2 * 2 ^ (e - 52) := by
          exact mul_le_mul_of_nonneg_right hr hu.le
      _ = 2 ^ e / 2 ^ 53 := by rw [h53]; ring
      _ ≤ |x| / 2 ^ 53 := by
          apply div_le_div_of_nonneg_right hlog
          positivity

/-- The exponent of a positive number lying between two consecutive powers of 2. -/
theorem log_eq_of_bounds (x : ℚ) (e : Int) (h1 : (2 : ℚ) ^ e ≤ x)
    (h2 : x < (2 : ℚ) ^ (e + 1)) : Int.log 2 |x| = e := by
  have hpos : 0 < x := lt_of_lt_of_le (by positivity) h1
  rw [abs_of_pos hpos]
  have a1 : e ≤ Int.log 2 x := by
    rw [← Int.zpow_le_iff_le_log (by norm_num) hpos]
    exact_mod_cast h1
  have a2 : Int.log 2 x < e + 1 := by
    rw [← Int.lt_zpow_iff_log_lt (by norm_num) hpos]
    exact_mod_cast h2
  omega

/-- The double nearest to a positive `x` with exponent `e`, when the multiple `m` of
`2 ^ (e - 52)` is less than half a unit away. -/
theorem roundToDouble_eq_of_pos (x : ℚ) (e m : Int) (h1 : (2 : ℚ) ^ e ≤ x)
    (h2 : x < (2 : ℚ) ^ (e + 1)) (h3 : -(1 / 2) < x / 2 ^ (e - 52) - (m : ℚ))
    (h4 : x / 2 ^ (e - 52) - (m : ℚ) < 1 / 2) :
    roundToDouble x = (m : ℚ) * 2 ^ (e - 52) := by
  have hpos : 0 < x := lt_of_lt_of_le (by positivity) h1
  unfold roundToDouble
  simp only [hpos.ne', if_false, log_eq_of_bounds x e h1 h2]
  rw [roundHalfEven_eq _ m (abs_lt.2 ⟨h3, h4⟩)]

/-- The double nearest to a positive `x` with exponent `e` that lies half way above the
even multiple `m` of `2 ^ (e - 52)`. -/
theorem roundToDouble_eq_of_tie (x : ℚ) (e m : Int) (h1 : (2 : ℚ) ^ e ≤ x)
    (h2 : x < (2 : ℚ) ^ (e + 1)) (h3 : x / 2 ^ (e - 52) - (m : ℚ) = 1 / 2)
    (hm : m % 2 = 0) :
    roundToDouble x = (m : ℚ) * 2 ^ (e - 52) := by
  have hpos : 0 < x := lt_of_lt_of_le (by positivity) h1
  unfold roundToDouble
  simp only [hpos.ne', if_false, log_eq_of_bounds x e h1 h2]
  rw [roundHalfEven_tie _ m h3 hm]

/-- Rounding a number that is not negative to a double changes it by less than one part
in a thousand. -/
theorem roundToDouble_near (x : ℚ) (hx : 0 ≤ x) :
    x * (999 / 1000) ≤ roundToDouble x ∧ roundToDouble x ≤ x * (1001 / 1000) := by
  have h := roundToDouble_error x
  rw [abs_of_nonneg hx, abs_le] at h
  have hu : x / 2 ^ 53 ≤ x * (1 / 1000) := by
    rw [div_eq_mul_inv]
    apply mul_le_mul_of_nonneg_left _ hx
    norm_num
  constructor <;> linarith [h.1, h.2]

/-- The number 0 is a double. -/
theorem roundToDouble_zero : roundToDouble 0 = 0 := by
  simp [roundToDouble]

/-- The number 100 is a double. -/
theorem roundToDouble_hundred : roundToDouble 100 = 100 := by
  rw [roundToDouble_eq_of_pos 100 6 7036874417766400 (by norm_num) (by norm_num)
    (by norm_num) (by norm_num)]
  norm_num

/-- The rounding argument of the health score: from rates `re`, `rw` that are roundings
of exact rates `a`, `b` with `a + b ≤ 1`, the two rounded products and the two rounded
subtractions leave at least 49.5. -/
theorem healthScore_chain (a b re rw : ℚ) (ha : 0 ≤ a) (hb : 0 ≤ b) (hab : a + b ≤ 1)
    (hre : a * (999 / 1000) ≤ re ∧ re ≤ a * (1001 / 1000))
    (hrw : b * (999 / 1000) ≤ rw ∧ rw ≤ b * (1001 / 1000)) :
    99 / 2 ≤ doubleSub (doubleSub 100 (doubleMul re 50)) (doubleMul rw 20) := by
  unfold doubleSub doubleMul
  have hre0 : 0 ≤ re := by linarith [hre.1]
  have hrw0 : 0 ≤ rw := by linarith [hrw.1]
  have hx1 := roundToDouble_near (re * 50) (by positivity)
  have hx2 := roundToDouble_near (rw * 20) (by positivity)
  have hh1 := roundToDouble_near (100 - roundToDouble (re * 50))
    (by linarith [hx1.2, hre.2])
  have hh2 := roundToDouble_near
    (roundToDouble (100 - roundToDouble (re * 50)) - roundToDouble (rw * 20))
    (by linarith [hx1.2, hx2.2, hh1.1, hre.2, hrw.2])
  linarith [hx1.2, hx2.2, hh1.1, hh2.1, hre.2, hrw.2]

/-- The score before the clamp is at least 49.5 when the error and warning logs are at
most all logs. -/
theorem rawHealthScore_ge (errors warnings total : Nat) (h : errors + warnings ≤ total) :
    99 / 2 ≤ SystemLogsPage.rawHealthScore errors warnings total := by
  unfold SystemLogsPage.rawHealthScore
  by_cases hn : total > 0
  · simp only [hn, if_true]
    have hpos : (0 : ℚ) < (total : ℚ) := by exact_mod_cast hn
    have he : (0 : ℚ) ≤ (errors : ℚ) / total := by positivity
    have hw : (0 : ℚ) ≤ (warnings : ℚ) / total := by positivity
    have hsum : (errors : ℚ) / total + (warnings : ℚ) / total ≤ 1 := by
      rw [← add_div, div_le_one hpos]
      exact_mod_cast h
    exact healthScore_chain _ _ _ _ he hw hsum (roundToDouble_near _ he)
      (roundToDouble_near _ hw)
  · simp only [hn, if_false]
    exact healthScore_chain 0 0 0 0 le_rfl le_rfl (by norm_num) (by norm_num) (by norm_num)

/-- Without a recent log the score before the clamp is 100. -/
theorem rawHealthScore_zero (errors warnings : Nat) :
    SystemLogsPage.rawHealthScore errors warnings 0 = 100 := by
  unfold SystemLogsPage.rawHealthScore doubleSub doubleMul
  simp only [gt_iff_lt, lt_self_iff_false, if_false, zero_mul, roundToDouble_zero, sub_zero,
    roundToDouble_hundred]

/-- Rounding the clamped score: from a raw score of at least 49.5 the clamp to 0 changes
nothing and the rounded score lies between 50 and 100. -/
theorem rounded_score_bounds (r : ℚ) (hlo : 99 / 2 ≤ r) :
    max 0 (min 100 r) = min 100 r ∧
    50 ≤ Int.floor (max 0 (min 100 r) + 1 / 2) ∧
    Int.floor (max 0 (min 100 r) + 1 / 2) ≤ 100 := by
  have hmin : 99 / 2 ≤ min 100 r := le_min (by norm_num) hlo
  have hmax : min 100 r ≤ 100 := min_le_left _ _
  have hclamp : max 0 (min 100 r) = min 100 r := max_eq_right (by linarith)
  rw [hclamp]
  refine ⟨rfl, ?_, ?_⟩
  · rw [Int.le_floor]
    push_cast
    linarith
  · have h : Int.floor (min 100 r + 1 / 2) < 101 := by
      rw [Int.floor_lt]
      push_cast
      linarith
    omega

/-- With 5 error logs and 1 warning log among 12 recent logs the score before the clamp is
the double 77.49999999999999 (exact arithmetic gives 77.5): the quotient 5/12 rounds to
0.4166666666666667, times 50 to 20.833333333333336, 100 minus that to 79.16666666666666;
1/12 rounds to 0.08333333333333333, times 20 to 1.6666666666666665. -/
theorem rawHealthScore_5_1_12 :
    SystemLogsPage.rawHealthScore 5 1 12 = 5453577673768959 / 70368744177664 := by
  have s1 : roundToDouble ((5 : ℚ) / 12) = 7505999378950827 / 18014398509481984 := by
    rw [roundToDouble_eq_of_pos _ (-2) 7505999378950827 (by norm_num) (by norm_num)
      (by norm_num) (by norm_num)]
    norm_num
  have s2 : roundToDouble (7505999378950827 / 18014398509481984 * 50)
      = 2932031007402667 / 140737488355328 := by
    rw [roundToDouble_eq_of_pos _ 4 5864062014805334 (by norm_num) (by norm_num)
      (by norm_num) (by norm_num)]
    norm_num
  have s3 : roundToDouble (100 - 2932031007402667 / 140737488355328)
      = 2785429457032533 / 35184372088832 := by
    rw [roundToDouble_eq_of_tie _ 6 5570858914065066 (by norm_num) (by norm_num)
      (by norm_num) (by decide)]
    norm_num
  have s4 : roundToDouble ((1 : ℚ) / 12) = 6004799503160661 / 72057594037927936 := by
    rw [roundToDouble_eq_of_pos _ (-4) 6004799503160661 (by norm_num) (by norm_num)
      (by norm_num) (by norm_num)]
    norm_num
  have s5 : roundToDouble (6004799503160661 / 72057594037927936 * 20)
      = 3752999689475413 / 2251799813685248 := by
    rw [roundToDouble_eq_of_pos _ 0 7505999378950826 (by norm_num) (by norm_num)
      (by norm_num) (by norm_num)]
    norm_num
  have s6 : roundToDouble (2785429457032533 / 35184372088832
        - 3752999689475413 / 2251799813685248)
      = 5453577673768959 / 70368744177664 := by
    rw [roundToDouble_eq_of_pos _ 6 5453577673768959 (by norm_num) (by norm_num)
      (by norm_num) (by norm_num)]
    norm_num
  unfold SystemLogsPage.rawHealthScore doubleSub doubleMul doubleDiv
  simp only [gt_iff_lt, Nat.ofNat_pos, if_true, Nat.cast_ofNat, Nat.cast_one, s1, s2, s3, s4,
    s5, s6]

/-- With 10 error logs and 1 warning log among 13 recent logs the score before the clamp
is the double 59.99999999999999 (exact arithmetic gives 60). -/
theorem rawHealthScore_10_1_13 :
    SystemLogsPage.rawHealthScore 10 1 13 = 8444249301319679 / 140737488355328 := by
  have s1 : roundToDouble ((10 : ℚ) / 13) = 6928614811339225 / 9007199254740992 := by
    rw [roundToDouble_eq_of_pos _ (-1) 6928614811339225 (by norm_num) (by norm_num)
      (by norm_num) (by norm_num)]
    norm_num
  have s2 : roundToDouble (6928614811339225 / 9007199254740992 * 50)
      = 2706490160679385 / 70368744177664 := by
    rw [roundToDouble_eq_of_pos _ 5 5412980321358770 (by norm_num) (by norm_num)
      (by norm_num) (by norm_num)]
    norm_num
  have s3 : roundToDouble (100 - 2706490160679385 / 70368744177664)
      = 4330384257087015 / 70368744177664 := by
    rw [roundToDouble_eq_of_pos _ 5 8660768514174030 (by norm_num) (by norm_num)
      (by norm_num) (by norm_num)]
    norm_num
  have s4 : roundToDouble ((1 : ℚ) / 13) = 1385722962267845 / 18014398509481984 := by
    rw [roundToDouble_eq_of_pos _ (-4) 5542891849071380 (by norm_num) (by norm_num)
      (by norm_num) (by norm_num)]
    norm_num
  have s5 : roundToDouble (1385722962267845 / 18014398509481984 * 20)
      = 6928614811339225 / 4503599627370496 := by
    rw [roundToDouble_eq_of_pos _ 0 6928614811339225 (by norm_num) (by norm_num)
      (by norm_num) (by norm_num)]
    norm_num
  have s6 : roundToDouble (4330384257087015 / 70368744177664
        - 6928614811339225 / 4503599627370496)
      = 8444249301319679 / 140737488355328 := by
    rw [roundToDouble_eq_of_pos _ 5 8444249301319679 (by norm_num) (by norm_num)
      (by norm_num) (by norm_num)]
    norm_num
  unfold SystemLogsPage.rawHealthScore doubleSub doubleMul doubleDiv
  simp only [gt_iff_lt, Nat.ofNat_pos, if_true, Nat.cast_ofNat, Nat.cast_one, s1, s2, s3, s4,
    s5, s6]

/-- The record that `calculateSystemHealth` returns, from the three counts. -/
theorem calculateSystemHealth_of_counts (logs : List LogEvent) (now : Int) (e w n : Nat)
    (hn : (logs.filter (fun log =>
      dateGe log.timestamp (some (now - 24 * 60 * 60 * 1000)))).length = n)
    (he : ((logs.filter (fun log =>
      dateGe log.timestamp (some (now - 24 * 60 * 60 * 1000)))).filter
        (fun log => levelLowerCase log == some "error")).length = e)
    (hw : ((logs.filter (fun log =>
      dateGe log.timestamp (some (now - 24 * 60 * 60 * 1000)))).filter
        (fun log => levelLowerCase log == some "warning")).length = w) :
    SystemLogsPage.calculateSystemHealth logs now
      = { score := Int.floor (max 0 (min 100 (SystemLogsPage.rawHealthScore e w n)) + 1 / 2)
          status :=
            if max 0 (min 100 (SystemLogsPage.rawHealthScore e w n)) < 60 then "poor"
            else if max 0 (min 100 (SystemLogsPage.rawHealthScore e w n)) < 80 then "fair"
            else if max 0 (min 100 (SystemLogsPage.rawHealthScore e w n)) < 95 then "good"
            else "excellent"
          errorCount := e
          warningCount := w
          totalEvents := n } := by
  subst hn he hw
  rfl

/-- The health record on two log lists, one hour after the logs were written. With 5
error logs and 1 warning log among 12 the program computes 77.49999999999999 and returns
score 77 (exact arithmetic would give 77.5 and 78); with 10 error logs and 1 warning log
among 13 it computes 59.99999999999999 and returns status `poor` with score 60 (exact
arithmetic would give 60 and `fair`). -/
theorem calculateSystemHealth_in_doubles :
    SystemLogsPage.calculateSystemHealth
        (List.replicate 5 (logAt 1 "ERROR" 0) ++ [logAt 2 "warning" 0] ++
          List.replicate 6 (logAt 3 "info" 0)) 3600000
      = ⟨77, "fair", 5, 1, 12⟩ ∧
    SystemLogsPage.calculateSystemHealth
        (List.replicate 10 (logAt 1 "ERROR" 0) ++ [logAt 2 "warning" 0] ++
          List.replicate 2 (logAt 3 "info" 0)) 3600000
      = ⟨60, "poor", 10, 1, 13⟩ := by
  constructor
  · rw [calculateSystemHealth_of_counts _ _ 5 1 12 (by decide) (by decide) (by decide),
      rawHealthScore_5_1_12]
    have hclamp : max (0 : ℚ) (min 100 (5453577673768959 / 70368744177664))
        = 5453577673768959 / 70368744177664 := by
      rw [min_eq_right (by norm_num), max_eq_right (by norm_num)]
    have hfloor : Int.floor ((5453577673768959 / 70368744177664 : ℚ) + 1 / 2) = 77 := by
      rw [Int.floor_eq_iff]
      constructor <;> norm_num
    rw [hclamp, hfloor, if_neg (by norm_num), if_pos (by norm_num)]
  · rw [calculateSystemHealth_of_counts _ _ 10 1 13 (by decide) (by decide) (by decide),
      rawHealthScore_10_1_13]
    have hclamp : max (0 : ℚ) (min 100 (8444249301319679 / 140737488355328))
        = 8444249301319679 / 140737488355328 := by
      rw [min_eq_right (by norm_num), max_eq_right (by norm_num)]
    have hfloor : Int.floor ((8444249301319679 / 140737488355328 : ℚ) + 1 / 2) = 60 := by
      rw [Int.floor_eq_iff]
      constructor <;> norm_num
    rw [hclamp, hfloor, if_pos (by norm_num)]

/-- Claim C29. For every log list and `now`, with every arithmetic operation rounded to a
double as the program computes it: the score of `calculateSystemHealth` is an integer
between 50 and 100; the score before the clamp is at least 49.5, so the clamp to 0 is not
reached (`Math.max(0, ..)` returns its second argument); `errorCount + warningCount ≤
totalEvents`; and when no log falls in the last 24 hours the score is 100 and the status
`excellent`. -/
theorem calculateSystemHealth_bounds (logs : List LogEvent) (now : Int) :
    (50 ≤ (SystemLogsPage.calculateSystemHealth logs now).score ∧
     (SystemLogsPage.calculateSystemHealth logs now).score ≤ 100) ∧
    (99 / 2 ≤ SystemLogsPage.rawHealthScore
        (SystemLogsPage.calculateSystemHealth logs now).errorCount
        (SystemLogsPage.calculateSystemHealth logs now).warningCount
        (SystemLogsPage.calculateSystemHealth logs now).totalEvents ∧
     max 0 (min 100 (SystemLogsPage.rawHealthScore
        (SystemLogsPage.calculateSystemHealth logs now).errorCount
        (SystemLogsPage.calculateSystemHealth logs now).warningCount
        (SystemLogsPage.calculateSystemHealth logs now).totalEvents))
      = min 100 (SystemLogsPage.rawHealthScore
        (SystemLogsPage.calculateSystemHealth logs now).errorCount
        (SystemLogsPage.calculateSystemHealth logs now).warningCount
        (SystemLogsPage.calculateSystemHealth logs now).totalEvents)) ∧
    (SystemLogsPage.calculateSystemHealth logs now).errorCount
        + (SystemLogsPage.calculateSystemHealth logs now).warningCount
      ≤ (SystemLogsPage.calculateSystemHealth logs now).totalEvents ∧
    ((∀ log ∈ logs, dateGe log.timestamp (some (now - 24 * 60 * 60 * 1000)) = false) →
      (SystemLogsPage.calculateSystemHealth logs now).score = 100 ∧
      (SystemLogsPage.calculateSystemHealth logs now).status = "excellent") := by
  have hle := length_filter_add_le
    (fun log : LogEvent => levelLowerCase log == some "error")
    (fun log : LogEvent => levelLowerCase log == some "warning")
    (logs.filter (fun log => dateGe log.timestamp (some (now - 24 * 60 * 60 * 1000))))
    (by
      intro x ⟨h1, h2⟩
      simp only [beq_iff_eq] at h1 h2
      rw [h1] at h2
      revert h2
      decide)
  have hlo := rawHealthScore_ge _ _ _ hle
  obtain ⟨hclamp, h50, h100⟩ := rounded_score_bounds _ hlo
  refine ⟨⟨h50, h100⟩, ⟨hlo, hclamp⟩, hle, ?_⟩
  intro hnone
  have hnil : logs.filter (fun log => dateGe log.timestamp (some (now - 24 * 60 * 60 * 1000)))
      = [] := by
    rw [List.filter_eq_nil_iff]
    intro log hl
    rw [hnone log hl]
    decide
  rw [calculateSystemHealth_of_counts logs now 0 0 0 (by rw [hnil]; rfl)
    (by rw [hnil]; rfl) (by rw [hnil]; rfl), rawHealthScore_zero]
  have hclamp100 : max (0 : ℚ) (min 100 100) = 100 := by norm_num
  have hfloor : Int.floor ((100 : ℚ) + 1 / 2) = 100 := by
    rw [Int.floor_eq_iff]
    constructor <;> norm_num
  simp only [hclamp100, hfloor]
  refine ⟨trivial, ?_⟩
  rw [if_neg (by norm_num), if_neg (by norm_num), if_neg (by norm_num)]


/-! ## Form validation -/

/-- What `validateForm` returns: the form is accepted exactly when the four required
fields are filled, the patient name is filled or the role is `patient`, and the test
"date-time at or before now" does not hold. -/
theorem validateForm_valid_iff (dateOfText : String → Option Int)
    (formData : AppointmentFormData) (role : Option String) (now : Int) :
    (validateForm dateOfText formData role now).valid = true ↔
      formData.doctorId ≠ "" ∧ formData.appointmentDate ≠ "" ∧
      formData.appointmentTime ≠ "" ∧ formData.reason ≠ "" ∧
      (formData.patientName ≠ "" ∨ role = some "patient") ∧
      dateLe (dateOfText (formData.appointmentDate ++ "T" ++ formData.appointmentTime))
        (some now) = false := by
  unfold validateForm
  by_cases h1 : formData.doctorId = "" <;> by_cases h2 : formData.appointmentDate = "" <;>
    by_cases h3 : formData.appointmentTime = "" <;> by_cases h4 : formData.reason = "" <;>
    by_cases h5 : formData.patientName = "" <;> by_cases h6 : role = some "patient" <;>
    cases h7 : dateLe (dateOfText (formData.appointmentDate ++ "T" ++
      formData.appointmentTime)) (some now) <;>
    simp [h1, h2, h3, h4, h5, h6, h7]

/-- A form whose date and time are filled and whose date-time is at or before `now` is
rejected with the error `Appointment must be in the future` on `appointmentTime`. -/
theorem validateForm_rejects_past (dateOfText : String → Option Int)
    (formData : AppointmentFormData) (role : Option String) (now t : Int)
    (hd : formData.appointmentDate ≠ "") (ht : formData.appointmentTime ≠ "")
    (hp : dateOfText (formData.appointmentDate ++ "T" ++ formData.appointmentTime) = some t)
    (hle : t ≤ now) :
    (validateForm dateOfText formData role now).valid = false ∧
    (validateForm dateOfText formData role now).errors.appointmentTime
      = some "Appointment must be in the future" := by
  unfold validateForm
  simp [hd, ht, hp, dateLe, hle]

/-- Claim C23, evaluated on the code at a failing input. A form with every field filled
whose date text does not parse: the date-time is `Invalid Date`, the comparison with now
is false, no error is set and `validateForm` returns `true`, although no instant after
now was formed. -/
theorem validateForm_accepts_unparsable_date_time :
    (fun _ : String => (none : Option Int)) ("not-a-date" ++ "T" ++ "10:00") = none ∧
    validateForm (fun _ => none) ⟨"d1", "not-a-date", "10:00", "checkup", "Ann"⟩
        (some "doctor") 1705492800000
      = ⟨⟨none, none, none, none, none⟩, true⟩ := by
  refine ⟨rfl, by decide⟩

/-! ## The unread count -/

/-- Claim C25, evaluated on the code at failing inputs. The state holds a read
notification 1 and an unread notification 2 with `unreadCount` 1. After `markAsRead(1)`,
and after `markAsRead(99)` for an absent id, the count is 0 while one notification is
still unread; after `markAsUnread(2)` the count is 2 while one notification is unread. -/
theorem unread_count_drifts :
    unreadNumber [readNotification 1, notificationAt 2 0] = 1 ∧
    (useNotifications.markAsRead ⟨[readNotification 1, notificationAt 2 0], 1⟩ 1).unreadCount
      = 0 ∧
    unreadNumber
      (useNotifications.markAsRead ⟨[readNotification 1, notificationAt 2 0], 1⟩ 1).notifications
      = 1 ∧
    (useNotifications.markAsRead ⟨[readNotification 1, notificationAt 2 0], 1⟩ 99).unreadCount
      = 0 ∧
    unreadNumber
      (useNotifications.markAsRead ⟨[readNotification 1, notificationAt 2 0], 1⟩ 99).notifications
      = 1 ∧
    (useNotifications.markAsUnread ⟨[readNotification 1, notificationAt 2 0], 1⟩ 2).unreadCount
      = 2 ∧
    unreadNumber
      (useNotifications.markAsUnread ⟨[readNotification 1, notificationAt 2 0], 1⟩ 2).notifications
      = 1 := by
  refine ⟨by decide, by decide, by decide, by decide, by decide, by decide, by decide⟩

/-! ## The chat input -/

/-- The length of a concatenation is the sum of the lengths. -/
theorem jsLength_append (a b : String) : jsLength (a ++ b) = jsLength a + jsLength b := by
  simp [jsLength, String.toList, String.data_append, List.map_append, List.sum_append]

/-- A text of `n` letters `a` has length `n`. -/
theorem jsLength_replicate (n : Nat) : jsLength (String.mk (List.replicate n 'a')) = n := by
  induction n with
  | zero => rfl
  | succ k ih =>
    have h : jsLength (String.mk (List.replicate (k + 1) 'a'))
        = 1 + jsLength (String.mk (List.replicate k 'a')) := by
      simp [jsLength, String.toList, List.replicate_succ]
    rw [h, ih]
    omega

/-- The message after typing: within `maxLength` when it was before. -/
theorem handleInputChange_within (maxLength : Nat) (message value : String)
    (h : jsLength message ≤ maxLength) :
    jsLength (ChatInput.handleInputChange maxLength message value) ≤ maxLength := by
  unfold ChatInput.handleInputChange
  split_ifs with hv
  · exact hv
  · exact h

/-- The message after submitting: within `maxLength` when it was before. -/
theorem handleSubmit_within (maxLength : Nat) (message : String) (selectedFiles : Nat)
    (sendSucceeds : Bool) (h : jsLength message ≤ maxLength) :
    jsLength (ChatInput.handleSubmit message selectedFiles sendSucceeds) ≤ maxLength := by
  unfold ChatInput.handleSubmit
  split_ifs
  · exact h
  · exact Nat.zero_le _
  · exact h

/-- Claim C27, evaluated on the code at a failing input. With the default `maxLength` of
1000 and a message of 1000 letters, `addEmoji` leaves a message of length 1002; it adds
the two code units of the emoji to a message of any length. -/
theorem addEmoji_exceeds_maxLength :
    jsLength (String.mk (List.replicate 1000 'a')) = 1000 ∧
    jsLength (ChatInput.addEmoji (String.mk (List.replicate 1000 'a')) "😊") = 1002 ∧
    (∀ message : String, jsLength (ChatInput.addEmoji message "😊") = jsLength message + 2) := by
  have h2 : jsLength "😊" = 2 := by decide
  refine ⟨jsLength_replicate 1000, ?_, ?_⟩
  · rw [ChatInput.addEmoji, jsLength_append, jsLength_replicate, h2]
  · intro message
    rw [ChatInput.addEmoji, jsLength_append, h2]

/-! ## Log levels -/

/-- Claim C28, evaluated on the code at a failing input, in UTC. One log of level `ERROR`
from the last 24 hours: `getLogsSummary` counts 0 logs of level `error`, `getLogsByLevel`
returns 1 and `calculateLogStats` counts 1. -/
theorem level_counts_disagree_on_letter_case :
    LogService.getRecentLogs 0
        (Except.ok (some [⟨1, some "ERROR", "disk full", some 1705492000000, none⟩]))
        (some 24) 1705492800000
      = Except.ok [⟨1, some "ERROR", "disk full", some 1705492000000, none⟩] ∧
    (LogService.getLogsSummary 0
        (Except.ok (some [⟨1, some "ERROR", "disk full", some 1705492000000, none⟩]))
        (some 24) 1705492800000).toOption.map (fun summary => summary.byLevel.error)
      = some 0 ∧
    (LogService.getLogsByLevel
        (Except.ok (some [⟨1, some "ERROR", "disk full", some 1705492000000, none⟩]))
        "error").toOption.map List.length
      = some 1 ∧
    SystemLogsPage.levelCount
        (((SystemLogsPage.calculateLogStats
          [⟨1, some "ERROR", "disk full", some 1705492000000, none⟩] 1705492800000).byLevel).getD [])
        "error"
      = 1 := by
  refine ⟨by rfl, by decide, by decide, by decide⟩


/-- None of the five mutations makes a non-negative count negative. -/
theorem unreadCount_nonneg (st : useNotifications.State) (notificationId : Nat)
    (h : 0 ≤ st.unreadCount) :
    0 ≤ (useNotifications.markAsRead st notificationId).unreadCount ∧
    0 ≤ (useNotifications.markAsUnread st notificationId).unreadCount ∧
    0 ≤ (useNotifications.deleteNotification st notificationId).unreadCount ∧
    0 ≤ (useNotifications.markAllAsRead st).unreadCount ∧
    0 ≤ (useNotifications.clearAllNotifications st).unreadCount := by
  refine ⟨le_max_left _ _, ?_, ?_, le_refl _, le_refl _⟩
  · simp only [useNotifications.markAsUnread]
    omega
  · simp only [useNotifications.deleteNotification]
    split
    · split_ifs
      · exact le_max_left _ _
      · exact h
    · exact h

/-- After `markAllAsRead` and after `clearAllNotifications` the count is the number of
unread notifications. -/
theorem unreadCount_after_reset (st : useNotifications.State) :
    (useNotifications.markAllAsRead st).unreadCount
      = unreadNumber (useNotifications.markAllAsRead st).notifications ∧
    (useNotifications.clearAllNotifications st).unreadCount
      = unreadNumber (useNotifications.clearAllNotifications st).notifications := by
  constructor
  · have h0 : (st.notifications.map (fun notif : Notification =>
        { notif with isRead := true })).countP (fun n => !n.isRead) = 0 := by
      rw [List.countP_eq_zero]
      intro n hn
      obtain ⟨m, -, rfl⟩ := List.mem_map.1 hn
      simp
    simp only [useNotifications.markAllAsRead, unreadNumber, h0]
    rfl
  · rfl

/-- Counting one more log under `level` raises the count of `level` by one and leaves
the other counts alone. -/
theorem levelCount_bumpLevel (m : List (String × Nat)) (level key : String) :
    SystemLogsPage.levelCount (SystemLogsPage.bumpLevel m level) key
      = SystemLogsPage.levelCount m key + (if level = key then 1 else 0) := by
  induction m with
  | nil =>
    by_cases h : level = key <;> simp [SystemLogsPage.bumpLevel, SystemLogsPage.levelCount, h]
  | cons p rest ih =>
    obtain ⟨k, v⟩ := p
    by_cases h1 : k = level
    · subst h1
      by_cases h2 : k = key <;>
        simp [SystemLogsPage.bumpLevel, SystemLogsPage.levelCount, h2]
    · by_cases h2 : k = key
      · have h3 : ¬ level = key := fun h => h1 (h2.trans h.symm)
        subst h2
        simp [SystemLogsPage.bumpLevel, SystemLogsPage.levelCount, h1, h3]
      · simp [SystemLogsPage.bumpLevel, SystemLogsPage.levelCount, h1, h2, ih]

/-- The count that `calculateLogStats` keeps for a key is the number of logs counted
under that key. -/
theorem levelCount_calculateLogStats (logs : List LogEvent) (now : Int) (key : String) :
    SystemLogsPage.levelCount ((SystemLogsPage.calculateLogStats logs now).byLevel.getD []) key
      = logs.countP (fun log => decide (SystemLogsPage.levelKey log = key)) := by
  have h : ∀ (l : List LogEvent) (acc : SystemLogsPage.LogStats),
      SystemLogsPage.levelCount
          ((l.foldl (SystemLogsPage.statsStep (now - 24 * 60 * 60 * 1000)
            (now - 7 * 24 * 60 * 60 * 1000)) acc).byLevel.getD []) key
        = SystemLogsPage.levelCount (acc.byLevel.getD []) key
          + l.countP (fun log => decide (SystemLogsPage.levelKey log = key)) := by
    intro l
    induction l with
    | nil => intro acc; simp
    | cons a l ih =>
      intro acc
      rw [List.foldl_cons, ih, List.countP_cons]
      simp only [SystemLogsPage.statsStep, Option.getD_some, levelCount_bumpLevel,
        decide_eq_true_eq]
      omega
  have h0 := h logs ⟨none, none, none, none⟩
  simpa [SystemLogsPage.calculateLogStats, SystemLogsPage.levelCount] using h0

/-- For each of the four levels, the number of logs that `getLogsByLevel` returns is the
count that `calculateLogStats` keeps. -/
theorem getLogsByLevel_length_eq_levelCount (logs : List LogEvent) (now : Int)
    (level : String) (hl : level ∈ ["error", "warning", "info", "debug"]) :
    (LogService.getLogsByLevel (Except.ok (some logs)) level).toOption.map List.length
      = some (SystemLogsPage.levelCount
          ((SystemLogsPage.calculateLogStats logs now).byLevel.getD []) level) := by
  rw [levelCount_calculateLogStats]
  simp only [LogService.getLogsByLevel, LogService.getAllLogs, Option.getD_some,
    Except.toOption, Option.map_some', List.countP_eq_length_filter]
  congr 2
  apply List.filter_congr
  intro log _
  have hlow : toLowerCase level = level := by
    simp only [List.mem_cons, List.mem_singleton, List.not_mem_nil, or_false] at hl
    rcases hl with rfl | rfl | rfl | rfl <;> decide
  have hne : level ≠ "" ∧ level ≠ "unknown" := by
    simp only [List.mem_cons, List.mem_singleton, List.not_mem_nil, or_false] at hl
    rcases hl with rfl | rfl | rfl | rfl <;> decide
  rw [hlow]
  unfold SystemLogsPage.levelKey
  cases hk : levelLowerCase log with
  | none => simp [hne.2.symm]
  | some l =>
    by_cases he : l = ""
    · subst he
      have h1 : ¬ "" = level := fun h => hne.1 h.symm
      have h2 : ¬ "unknown" = level := fun h => hne.2 h.symm
      simp [h1, h2]
    · by_cases hll : l = level
      · subst hll
        simp [he]
      · simp [he, hll]

end VitaLife
